import Mathlib

/-!
Verification of the wg-mesh-configurator core against its specification.

This file gives a shallow embedding, in Lean 4, of the parts of the
TypeScript source that the checked claims concern:

* `src/lib/ip-utils.ts` — CIDR parsing and IPv4 integer arithmetic;
* `src/lib/psk.ts` (shipped unnamed) — the deterministic PSK derivation,
  together with a full executable SHA-256 and base64;
* `src/lib/generate.ts` and the `generateZip` variant — mesh resolution,
  key filling and neighbor adjacency;
* `src/lib/provisioning/service.ts`, `repository.ts` and the
  `peers/apply` HTTP route — the transactional reconciler.

Numbers follow JavaScript semantics where that matters: 32-bit shifts
truncate through `ToInt32`/`ToUint32` (modelled with explicit `% 2^32`),
and `Number(...)` conversion of strings is modelled on the digit-string
sub-domain (see `jsNumDigits`).  Effects are modelled by explicit state
passing: the persisted document is a value, the WireGuard runtime is a
`World` that records every attempted mutating adapter call in a trace,
and failure of external commands is injected through an explicit fault
schedule.
-/

deriving instance DecidableEq for Except

namespace WgMesh

/-! ## IP / CIDR arithmetic (`src/lib/ip-utils.ts`) -/

/-- Split a character list on a separator character, JavaScript
`split` style: the result always has one more part than there are
separators (so `"" → [""]`, `"a." → ["a",""]`). -/
def splitChar (sep : Char) : List Char → List (List Char)
  | [] => [[]]
  | ch :: rest =>
    match splitChar sep rest with
    | h :: t => if ch == sep then [] :: h :: t else (ch :: h) :: t
    | [] => [[ch]]

/-- JavaScript `s.split(sep)` for a one-character separator (the only
form the source uses: `"."` and `"/"`), implemented structurally so
that it evaluates inside the kernel. -/
def jsSplit (s : String) (sep : Char) : List String :=
  (splitChar sep s.data).map String.mk

/-- Result shape of `parseCidr` (source type `ParsedCidr`).  The source
field `prefix` is called `prefixLen` here. -/
structure ParsedCidr where
  base : Nat
  prefixLen : Nat
  size : Nat
  last : Nat
deriving Repr, DecidableEq

/-- `0xffffffff`, the source constant `MAX_IPV4`. -/
def maxIpv4 : Nat := 4294967295

/-- JavaScript `Number(s)` modelled on the digit-string sub-domain: a
string made only of ASCII digits converts to its decimal value (the
empty string converts to `0`, as in JavaScript); every other string is
mapped to `none`, standing for `NaN`.  Other JavaScript numeric
syntaxes (signs, fractions, exponents, hex) are outside the model, and
every theorem quantifying over strings restricts itself to this
sub-domain. -/
def jsNumDigits (s : String) : Option Nat :=
  if s.data.all (fun c => c.isDigit) then
    some (s.data.foldl (fun acc c => acc * 10 + (c.toNat - 48)) 0)
  else none

/-- JavaScript `ToInt32`: reduce mod `2^32` and reinterpret as signed. -/
def toInt32 (n : Nat) : Int :=
  let m := n % 4294967296
  if m < 2147483648 then (m : Int) else (m : Int) - 4294967296

/-- JavaScript `x << k` for a nonnegative integral `x`: the shifted
value reduced to a signed 32-bit integer. -/
def jsShl (x k : Nat) : Int := toInt32 (x * 2 ^ k)

/-- `ipToInt` from `src/lib/ip-utils.ts`: split on `"."`, convert each
part with `Number`, fail when there are not exactly 4 numeric parts,
and combine with `(a<<24)+(b<<16)+(c<<8)+d` followed by `>>> 0`
(`ToUint32`).  Octets are not range-checked, exactly as in the source. -/
def ipToInt (ip : String) : Except String Nat :=
  match (jsSplit ip '.').map jsNumDigits with
  | [some a, some b, some c, some d] =>
      .ok (((jsShl a 24 + jsShl b 16 + jsShl c 8 + (d : Int)) % (4294967296 : Int)).toNat)
  | _ => .error "IPv4 adresi gecersiz."

/-- `intToIp` from `src/lib/ip-utils.ts`. -/
def intToIp (num : Nat) : String :=
  toString ((num >>> 24) % 256) ++ "." ++ toString ((num >>> 16) % 256) ++ "." ++
    toString ((num >>> 8) % 256) ++ "." ++ toString (num % 256)

/-- `parseCidr` from `src/lib/ip-utils.ts`.  The split takes the part
before the first `/` as the address and the part after it as the
prefix (`Number(undefined)` is `NaN` when no `/` is present); the
prefix must be a number in `[8,30]`, the address must be non-empty and
convert through `ipToInt`, and `last = base + 2^(32-prefix) - 1` must
not exceed `MAX_IPV4`. -/
def parseCidr (cidr : String) : Except String ParsedCidr :=
  let parts := jsSplit cidr '/'
  let ip := parts.headD ""
  let prefixNum? : Option Nat :=
    match parts with
    | _ :: p :: _ => jsNumDigits p
    | _ => none
  match prefixNum? with
  | none => .error "CIDR gecersiz. Ornek: 10.20.0.0/24"
  | some pfx =>
    if ip = "" ∨ pfx < 8 ∨ 30 < pfx then .error "CIDR gecersiz. Ornek: 10.20.0.0/24"
    else
      match ipToInt ip with
      | .error e => .error e
      | .ok base =>
        let size := 2 ^ (32 - pfx)
        let last := base + size - 1
        if maxIpv4 < last then .error "CIDR araligi gecersiz."
        else .ok ⟨base, pfx, size, last⟩

end WgMesh

namespace WgMesh

/-! ## SHA-256, base64 and JavaScript string primitives

`deriveDeterministicPsk` (shipped in the repository's `psk` module)
hashes a seed string with SHA-256 (the `@noble/hashes` implementation,
i.e. FIPS 180-4 over the UTF-8 bytes of the string) and base64-encodes
the digest.  Both primitives are implemented here in full so that every
theorem about the derivation is executable. -/

/-- Truncating 32-bit addition of a list of words. -/
def add32 (xs : List Nat) : Nat := (xs.foldl (· + ·) 0) % 4294967296

/-- 32-bit right rotation. -/
def rotr32 (x n : Nat) : Nat := ((x >>> n) ||| (x <<< (32 - n))) % 4294967296

/-- 32-bit complement. -/
def not32 (x : Nat) : Nat := x ^^^ 4294967295

/-- SHA-256 `Ch`. -/
def shaCh (x y z : Nat) : Nat := (x &&& y) ^^^ (not32 x &&& z)

/-- SHA-256 `Maj`. -/
def shaMaj (x y z : Nat) : Nat := (x &&& y) ^^^ (x &&& z) ^^^ (y &&& z)

/-- SHA-256 `Σ0`. -/
def shaS0 (x : Nat) : Nat := rotr32 x 2 ^^^ rotr32 x 13 ^^^ rotr32 x 22

/-- SHA-256 `Σ1`. -/
def shaS1 (x : Nat) : Nat := rotr32 x 6 ^^^ rotr32 x 11 ^^^ rotr32 x 25

/-- SHA-256 `σ0`. -/
def shas0 (x : Nat) : Nat := rotr32 x 7 ^^^ rotr32 x 18 ^^^ (x >>> 3)

/-- SHA-256 `σ1`. -/
def shas1 (x : Nat) : Nat := rotr32 x 17 ^^^ rotr32 x 19 ^^^ (x >>> 10)

/-- The 64 SHA-256 round constants. -/
def shaK : List Nat :=
  [1116352408, 1899447441, 3049323471, 3921009573, 961987163,
   1508970993, 2453635748, 2870763221, 3624381080, 310598401,
   607225278, 1426881987, 1925078388, 2162078206, 2614888103,
   3248222580, 3835390401, 4022224774, 264347078, 604807628,
   770255983, 1249150122, 1555081692, 1996064986, 2554220882,
   2821834349, 2952996808, 3210313671, 3336571891, 3584528711,
   113926993, 338241895, 666307205, 773529912, 1294757372,
   1396182291, 1695183700, 1986661051, 2177026350, 2456956037,
   2730485921, 2820302411, 3259730800, 3345764771, 3516065817,
   3600352804, 4094571909, 275423344, 430227734, 506948616,
   659060556, 883997877, 958139571, 1322822218, 1537002063,
   1747873779, 1955562222, 2024104815, 2227730452, 2361852424,
   2428436474, 2756734187, 3204031479, 3329325298]

/-- The SHA-256 initial hash value. -/
def shaH0 : List Nat :=
  [1779033703, 3144134277, 1013904242, 2773480762, 1359893119,
   2600822924, 528734635, 1541459225]

/-- Big-endian bytes of a 64-bit length field. -/
def be64 (n : Nat) : List Nat :=
  [(n >>> 56) % 256, (n >>> 48) % 256, (n >>> 40) % 256, (n >>> 32) % 256,
   (n >>> 24) % 256, (n >>> 16) % 256, (n >>> 8) % 256, n % 256]

/-- Big-endian bytes of a 32-bit word. -/
def be32 (n : Nat) : List Nat :=
  [(n >>> 24) % 256, (n >>> 16) % 256, (n >>> 8) % 256, n % 256]

/-- FIPS 180-4 padding: append `0x80`, zero bytes up to 56 mod 64, and
the bit length as a big-endian 64-bit integer. -/
def sha256pad (msg : List Nat) : List Nat :=
  let z := (119 - msg.length % 64) % 64
  msg ++ [0x80] ++ List.replicate z 0 ++ be64 (msg.length * 8)

/-- Big-endian 32-bit word `i` of a byte list. -/
def beWordAt (block : List Nat) (i : Nat) : Nat :=
  block.getD (4 * i) 0 * 16777216 + block.getD (4 * i + 1) 0 * 65536 +
    block.getD (4 * i + 2) 0 * 256 + block.getD (4 * i + 3) 0

/-- The 64-entry message schedule of one block. -/
def shaSchedule (block : List Nat) : Array Nat :=
  let w0 := ((List.range 16).map (beWordAt block)).toArray
  (List.range 48).foldl
    (fun w t =>
      w.push (add32 [shas1 (w.getD (t + 14) 0), w.getD (t + 9) 0,
                     shas0 (w.getD (t + 1) 0), w.getD t 0]))
    w0

/-- One SHA-256 compression round. -/
def shaRound (st : Nat × Nat × Nat × Nat × Nat × Nat × Nat × Nat) (kw : Nat × Nat) :
    Nat × Nat × Nat × Nat × Nat × Nat × Nat × Nat :=
  let (a, b, c, d, e, f, g, h) := st
  let t1 := add32 [h, shaS1 e, shaCh e f g, kw.1, kw.2]
  let t2 := add32 [shaS0 a, shaMaj a b c]
  (add32 [t1, t2], a, b, c, add32 [d, t1], e, f, g)

/-- Compress one 64-byte block into the running hash. -/
def shaCompress (h : List Nat) (block : List Nat) : List Nat :=
  let w := shaSchedule block
  let init := (h.getD 0 0, h.getD 1 0, h.getD 2 0, h.getD 3 0,
               h.getD 4 0, h.getD 5 0, h.getD 6 0, h.getD 7 0)
  let kw := shaK.zip w.toList
  let (a, b, c, d, e, f, g, hh) := kw.foldl shaRound init
  [add32 [h.getD 0 0, a], add32 [h.getD 1 0, b], add32 [h.getD 2 0, c], add32 [h.getD 3 0, d],
   add32 [h.getD 4 0, e], add32 [h.getD 5 0, f], add32 [h.getD 6 0, g], add32 [h.getD 7 0, hh]]

/-- SHA-256 of a byte list, as a 32-byte list. -/
def sha256 (msg : List Nat) : List Nat :=
  let padded := sha256pad msg
  let nBlocks := padded.length / 64
  let hFinal := (List.range nBlocks).foldl
    (fun h i => shaCompress h ((padded.drop (64 * i)).take 64)) shaH0
  hFinal.flatMap be32

/-- UTF-8 encoding of one code point. -/
def utf8Char (n : Nat) : List Nat :=
  if n < 128 then [n]
  else if n < 2048 then [192 ||| (n >>> 6), 128 ||| (n % 64)]
  else if n < 65536 then [224 ||| (n >>> 12), 128 ||| ((n >>> 6) % 64), 128 ||| (n % 64)]
  else [240 ||| (n >>> 18), 128 ||| ((n >>> 12) % 64), 128 ||| ((n >>> 6) % 64), 128 ||| (n % 64)]

/-- UTF-8 bytes of a string (how `@noble/hashes` feeds a string to SHA-256). -/
def utf8Bytes (s : String) : List Nat := s.data.flatMap (fun c => utf8Char c.toNat)

/-- The base64 alphabet. -/
def b64Char (n : Nat) : Char :=
  "ABCDEFGHIJKLMNOPQRSTUVWXYZabcdefghijklmnopqrstuvwxyz0123456789+/".data.getD n 'A'

/-- Standard base64 encoding with padding, as produced by
`Buffer.from(bytes).toString("base64")`. -/
def bytesToBase64 : List Nat → String
  | [] => ""
  | [b1] =>
      String.mk [b64Char (b1 >>> 2), b64Char ((b1 % 4) <<< 4), '=', '=']
  | [b1, b2] =>
      String.mk [b64Char (b1 >>> 2), b64Char (((b1 % 4) <<< 4) ||| (b2 >>> 4)),
                 b64Char ((b2 % 16) <<< 2), '=']
  | b1 :: b2 :: b3 :: rest =>
      String.mk [b64Char (b1 >>> 2), b64Char (((b1 % 4) <<< 4) ||| (b2 >>> 4)),
                 b64Char (((b2 % 16) <<< 2) ||| (b3 >>> 6)), b64Char (b3 % 64)] ++
        bytesToBase64 rest

/-- The JavaScript `String.prototype.trim` whitespace set (WhiteSpace
and LineTerminator code points). -/
def isJsWhitespace (c : Char) : Bool :=
  c.toNat ∈ [0x9, 0xA, 0xB, 0xC, 0xD, 0x20, 0xA0, 0x1680, 0x2000, 0x2001, 0x2002, 0x2003,
             0x2004, 0x2005, 0x2006, 0x2007, 0x2008, 0x2009, 0x200A, 0x2028, 0x2029, 0x202F,
             0x205F, 0x3000, 0xFEFF]

/-- JavaScript `s.trim()`. -/
def jsTrim (s : String) : String :=
  String.mk (((s.data.dropWhile isJsWhitespace).reverse.dropWhile isJsWhitespace).reverse)

/-- UTF-16 code units of a string (JavaScript's native string elements). -/
def utf16Units (s : String) : List Nat :=
  s.data.flatMap fun c =>
    let n := c.toNat
    if n < 65536 then [n]
    else [0xD800 + (n - 65536) / 1024, 0xDC00 + (n - 65536) % 1024]

/-- Lexicographic order on code-unit lists. -/
def lexLt : List Nat → List Nat → Bool
  | _, [] => false
  | [], _ :: _ => true
  | a :: as, b :: bs => if a < b then true else if b < a then false else lexLt as bs

/-- JavaScript default string comparison (`<` and the default `sort`
comparator): lexicographic on UTF-16 code units. -/
def jsStrLt (a b : String) : Bool := lexLt (utf16Units a) (utf16Units b)

/-- JavaScript `[x, y].sort()` on two strings: swap exactly when the
first compares greater than the second. -/
def jsSortPair (a b : String) : String × String :=
  if jsStrLt b a then (b, a) else (a, b)

/-- `deriveDeterministicPsk` from the repository's `psk` module:
`const [left, right] = [a.trim(), b.trim()].sort();` then
`base64(sha256("wg-mesh-psk::" + left + "::" + right))`. -/
def deriveDeterministicPsk (a b : String) : String :=
  let lr := jsSortPair (jsTrim a) (jsTrim b)
  bytesToBase64 (sha256 (utf8Bytes ("wg-mesh-psk::" ++ lr.1 ++ "::" ++ lr.2)))

/-- The spec's stated formula, written from the spec's words:
`base64(SHA-256("wg-mesh-psk::" + sort(a,b).join("::")))` over the
given names as-is (no trimming). -/
def pskSpecFormula (a b : String) : String :=
  let lr := jsSortPair a b
  bytesToBase64 (sha256 (utf8Bytes ("wg-mesh-psk::" ++ lr.1 ++ "::" ++ lr.2)))

end WgMesh

namespace WgMesh

/-! ## Mesh resolver (`src/lib/generate.ts` and the `generateZip` variant)

The input types follow `src/lib/types.ts` (`NodeInput`, `ClientInput`,
`GeneratePayload`).  In the source a key can be "absent" either by
being `undefined` or by being the empty string (both are JS-falsy, and
the source tests keys with `!node.publicKey`); keys are therefore
modelled as `Option String` with `jsFalsy` as the absence test.  The
two external cryptographic operations are passed in as oracles:
`gen` stands for the keypair `generateKeypair()` would draw, and
`derivePub` for the x25519 public-key derivation used by
`derivePublicKey` (which can fail on a bad base64 private key). -/

/-- Result of `generateKeypair()`: both keys base64-encoded. -/
structure KeyPair where
  privateKey : String
  publicKey : String
deriving Repr, DecidableEq

/-- `NodeInput` from `src/lib/types.ts` (the optional `presharedKey`
field is never read by the resolver and is omitted). -/
structure NodeInput where
  id : String
  name : String
  publicKey : Option String
  privateKey : Option String
  endpoint : String
  listenPort : Nat
  sshUser : Option String := none
  sshPort : Option Nat := none
deriving Repr, DecidableEq

/-- `ClientInput` from `src/lib/types.ts`. -/
structure ClientInput where
  id : String
  name : String
  publicKey : Option String
  privateKey : Option String
deriving Repr, DecidableEq

/-- `EndpointVersion` from `src/lib/types.ts`. -/
inductive EndpointVersion
  | ipv4
  | ipv6
deriving Repr, DecidableEq

/-- `GeneratePayload` from `src/lib/types.ts`. -/
structure GeneratePayload where
  networkCidr : String
  interfaceName : String
  endpointVersion : EndpointVersion
  persistentKeepalive : Nat
  includeIpForwarding : Bool
  enableBabel : Bool
  autoGenerateKeys : Bool
  nodes : List NodeInput
  clients : List ClientInput
  gatewayNodeNames : List String
deriving Repr, DecidableEq

/-- JavaScript falsiness of an optional string: `undefined` and `""`
are falsy, every other string is truthy. -/
def jsFalsy : Option String → Bool
  | none => true
  | some s => s.isEmpty

/-- Errors thrown by the resolver; each constructor corresponds to one
`throw new Error(...)` site, with the source message in the comment.
`CapacityExceeded` in the spec's taxonomy covers `nodeCapacity` and
`clientCapacity`; `MissingKey` covers `missingPrivateKey` and
`missingPublicKey`. -/
inductive GenErr
  | needAtLeastOneNode                 -- "En az 1 node gerekli."
  | cidrRequired                       -- "IPv4 CIDR gerekli."
  | interfaceNameRequired              -- "Interface ismi gerekli."
  | invalidCidr (msg : String)         -- message thrown by parseCidr / ipToInt
  | nodeCapacity                       -- "Node sayisi CIDR'a sigmiyor."
  | clientCapacity                     -- "Client sayisi CIDR'a sigmiyor."
  | unknownGateway (name : String)     -- "Gateway node bulunamadi: <name>"
  | invalidPrivateKeyBase64            -- "Private key base64 gecersiz."
  | missingPrivateKey (name : String)  -- "Node/Client <name> icin private key gerekli."
  | missingPublicKey (name : String)   -- "Node/Client <name> icin public key gerekli."
deriving Repr, DecidableEq

/-- Is the error a `MissingKey` failure in the spec's taxonomy? -/
def GenErr.isMissingKey : GenErr → Bool
  | .missingPrivateKey _ => true
  | .missingPublicKey _ => true
  | _ => false

/-- Key filling for one peer as performed inside `resolveMeshState` in
`src/lib/generate.ts`: generate when `autoGenerateKeys` and both keys
are falsy; else derive the public key when the private key is truthy
and the public key falsy; otherwise return the keys unchanged — this
variant has no missing-key failure.  Returns the (private, public)
pair. -/
def fillKeysResolve (autoGen : Bool) (gen : KeyPair)
    (derivePub : String → Except GenErr String)
    (priv pub : Option String) : Except GenErr (Option String × Option String) :=
  if autoGen && jsFalsy pub && jsFalsy priv then
    .ok (some gen.privateKey, some gen.publicKey)
  else if !jsFalsy priv && jsFalsy pub then
    match derivePub (priv.getD "") with
    | .error e => .error e
    | .ok pk => .ok (priv, some pk)
  else .ok (priv, pub)

/-- Key filling for one peer as performed inside the `generateZip`
variant of the resolver: as `fillKeysResolve`, but a peer that reaches
the fall-through with a falsy private or public key fails with the
missing-key errors (`"... icin private key gerekli."` /
`"... icin public key gerekli."`).  `name` is the peer name used in
the error message. -/
def fillKeysZip (autoGen : Bool) (gen : KeyPair)
    (derivePub : String → Except GenErr String)
    (name : String) (priv pub : Option String) :
    Except GenErr (Option String × Option String) :=
  if autoGen && jsFalsy pub && jsFalsy priv then
    .ok (some gen.privateKey, some gen.publicKey)
  else if !jsFalsy priv && jsFalsy pub then
    match derivePub (priv.getD "") with
    | .error e => .error e
    | .ok pk => .ok (priv, some pk)
  else if jsFalsy priv then .error (.missingPrivateKey name)
  else if jsFalsy pub then .error (.missingPublicKey name)
  else .ok (priv, pub)

/-- A node record after resolution (`{...node, address}` plus filled keys). -/
structure ResolvedNode where
  id : String
  name : String
  publicKey : Option String
  privateKey : Option String
  endpoint : String
  listenPort : Nat
  address : String
deriving Repr, DecidableEq

/-- A client record after resolution. -/
structure ResolvedClient where
  id : String
  name : String
  publicKey : Option String
  privateKey : Option String
  address : String
deriving Repr, DecidableEq

/-- The value returned by `resolveMeshState`. -/
structure ResolvedMesh where
  resolvedNodes : List ResolvedNode
  resolvedClients : List ResolvedClient
  nodeIps : List String
  clientIps : List String
  parsed : ParsedCidr
deriving Repr, DecidableEq

/-- The `nodes.map((node, i) => ...)` loop of `resolveMeshState`,
threading the keypair oracle counter (`gen i` is the `i`-th keypair
`generateKeypair()` draws; the counter advances only when a keypair is
actually drawn). -/
def fillNodesResolve (autoGen : Bool) (gen : Nat → KeyPair)
    (derivePub : String → Except GenErr String) :
    Nat → List (NodeInput × String) → Except GenErr (List ResolvedNode × Nat)
  | ctr, [] => .ok ([], ctr)
  | ctr, (n, ip) :: rest =>
    match fillKeysResolve autoGen (gen ctr) derivePub n.privateKey n.publicKey with
    | .error e => .error e
    | .ok (priv, pub) =>
      let ctr2 := if autoGen && jsFalsy n.publicKey && jsFalsy n.privateKey then ctr + 1 else ctr
      match fillNodesResolve autoGen gen derivePub ctr2 rest with
      | .error e => .error e
      | .ok (tail, ctr3) =>
        .ok ({ id := n.id, name := n.name, publicKey := pub, privateKey := priv,
               endpoint := n.endpoint, listenPort := n.listenPort,
               address := ip ++ "/32" } :: tail, ctr3)

/-- The `clients.map((client, i) => ...)` loop of `resolveMeshState`. -/
def fillClientsResolve (autoGen : Bool) (gen : Nat → KeyPair)
    (derivePub : String → Except GenErr String) :
    Nat → List (ClientInput × String) → Except GenErr (List ResolvedClient × Nat)
  | ctr, [] => .ok ([], ctr)
  | ctr, (c, ip) :: rest =>
    match fillKeysResolve autoGen (gen ctr) derivePub c.privateKey c.publicKey with
    | .error e => .error e
    | .ok (priv, pub) =>
      let ctr2 := if autoGen && jsFalsy c.publicKey && jsFalsy c.privateKey then ctr + 1 else ctr
      match fillClientsResolve autoGen gen derivePub ctr2 rest with
      | .error e => .error e
      | .ok (tail, ctr3) =>
        .ok ({ id := c.id, name := c.name, publicKey := pub, privateKey := priv,
               address := ip ++ "/32" } :: tail, ctr3)

/-- `resolveMeshState` from `src/lib/generate.ts`: validation in source
order (node count, CIDR and interface-name presence, `parseCidr`, node
then client capacity, gateway membership), positional address
assignment, then key filling.  `gen` supplies the keypairs
`generateKeypair()` would draw, in drawing order. -/
def resolveMeshState (gen : Nat → KeyPair)
    (derivePub : String → Except GenErr String)
    (payload : GeneratePayload) : Except GenErr ResolvedMesh :=
  if payload.nodes.length = 0 then .error .needAtLeastOneNode
  else if payload.networkCidr.length = 0 then .error .cidrRequired
  else if (jsTrim payload.interfaceName).length = 0 then .error .interfaceNameRequired
  else
    match parseCidr payload.networkCidr with
    | .error msg => .error (.invalidCidr msg)
    | .ok parsed =>
      let serverStart := parsed.base + 1
      let clientStart := parsed.base + 101
      if ¬ (serverStart + payload.nodes.length ≤ parsed.last) then .error .nodeCapacity
      else if ¬ (clientStart + payload.clients.length ≤ parsed.last) then .error .clientCapacity
      else
        match payload.gatewayNodeNames.find? (fun g => payload.nodes.all (fun n => n.name ≠ g)) with
        | some g => .error (.unknownGateway g)
        | none =>
          let nodeIps := (List.range payload.nodes.length).map (fun i => intToIp (serverStart + i))
          let clientIps := (List.range payload.clients.length).map (fun i => intToIp (clientStart + i))
          match fillNodesResolve payload.autoGenerateKeys gen derivePub 0
              (payload.nodes.zip nodeIps) with
          | .error e => .error e
          | .ok (rNodes, ctr) =>
            match fillClientsResolve payload.autoGenerateKeys gen derivePub ctr
                (payload.clients.zip clientIps) with
            | .error e => .error e
            | .ok (rClients, _) =>
              .ok { resolvedNodes := rNodes, resolvedClients := rClients,
                    nodeIps := nodeIps, clientIps := clientIps, parsed := parsed }

/-- `Set.add` of the JS `Set` used by `neighborIndexes`: insertion
order is kept and duplicates are dropped. -/
def pushNew (acc : List Nat) (v : Nat) : List Nat :=
  if v ∈ acc then acc else acc ++ [v]

/-- `neighborIndexes` from `src/lib/generate.ts`.  The JS `Set` keeps
insertion order and deduplicates, modelled by the `pushNew` fold; the
JS expression `(index - offset + count) % count` is written
`(index + count - offset) % count`, the same integer because
`offset ≤ 3 < count` in the branch where it is evaluated. -/
def neighborIndexes (index count : Nat) : List Nat :=
  if count ≤ 1 then []
  else if count = 2 then [if index = 0 then 1 else 0]
  else if count = 3 then [0, 1, 2].filter (fun i => i ≠ index)
  else
    let offsets := if count < 6 then [1] else [1, 3]
    let neighbors := offsets.foldl
      (fun acc o => pushNew (pushNew acc ((index + o) % count)) ((index + count - o) % count)) []
    neighbors.filter (fun i => i ≠ index)

end WgMesh

namespace WgMesh

/-! ## Provisioning data model (`src/lib/provisioning/contracts.ts`)

Effects are made explicit: the on-disk document is a `PersistedState`
value, and the WireGuard runtime plus all sources of nondeterminism
(command failures, `randomUUID()`, `new Date()`) live in a `World`.
Every attempted mutating adapter call is appended to `World.trace`,
so frame and ordering properties are statements about the trace. -/

/-- A managed peer (`peerSchema`).  `interface` is optional in the
schema; `none` models an absent value (the back-compat default is the
interface name `"wg0"`). -/
structure Peer where
  peerId : String
  name : String
  publicKey : String
  privateKey : Option String := none
  allowedIps : List String
  endpoint : Option String := none
  persistentKeepalive : Option Nat := none
  isActive : Bool
  interface : Option String := none
deriving Repr, DecidableEq, Inhabited

/-- An interface record of the persisted document (`metaSchema`). -/
structure InterfaceRecord where
  listenPort : Nat
  addressCidr : String
  revision : Nat
  isUp : Bool
  privateKey : Option String := none
deriving Repr, DecidableEq

/-- The persisted document (`metaSchema` in `repository.ts`);
`interfaces` is a JS object, modelled as an association list keyed by
interface name. -/
structure PersistedState where
  version : Nat
  updatedAt : String
  interfaces : List (String × InterfaceRecord)
  peers : List Peer
deriving Repr, DecidableEq

/-- Map lookup `state.interfaces[name]`. -/
def lookupIface (s : PersistedState) (name : String) : Option InterfaceRecord :=
  (s.interfaces.find? (fun p => p.1 == name)).map (·.2)

/-- Map write `state.interfaces[name] = r` (replace or insert). -/
def setIface (ifaces : List (String × InterfaceRecord)) (name : String)
    (r : InterfaceRecord) : List (String × InterfaceRecord) :=
  if ifaces.any (fun p => p.1 == name) then
    ifaces.map (fun p => if p.1 == name then (name, r) else p)
  else ifaces ++ [(name, r)]

/-- `getPeersForInterface` from `service.ts`: peers whose `interface`
equals the name, plus — back-compat — peers with a falsy `interface`
when the name is `"wg0"`. -/
def getPeersForInterface (s : PersistedState) (name : String) : List Peer :=
  s.peers.filter (fun p => p.interface == some name || (jsFalsy p.interface && name == "wg0"))

/-- The `otherPeers` filter used by the service before replacing an
interface's peer list: source
`p.interface !== name && (p.interface || name !== "wg0")`. -/
def keepsOtherPeer (name : String) (p : Peer) : Bool :=
  p.interface != some name && (!jsFalsy p.interface || name != "wg0")

/-- An observed runtime peer (`RuntimePeer` in `contracts.ts`). -/
structure RuntimePeer where
  publicKey : String
  presharedKey : Option String := none
  endpoint : Option String := none
  allowedIps : List String := []
  latestHandshake : Nat := 0
  transferRx : Nat := 0
  transferTx : Nat := 0
  persistentKeepalive : Option Nat := none
deriving Repr, DecidableEq

/-- One live WireGuard interface as the Runtime Adapter observes it —
a link state and a peer set.  This is the state the out-of-process
`wg`/`ip` tools maintain; no repository code computes it (the
`WireGuardAdapter` implementation, staged in the `remote-deployer`
source file, only builds the command lines and parses their output),
so it is modelled from the adapter contract (§4.5), cross-checked
against that staged implementation. -/
structure RuntimeIface where
  up : Bool := true
  listenPort : Nat := 0
  peers : List RuntimePeer := []
deriving Repr, DecidableEq

/-- A mutating call on the runtime adapter, as issued by the service. -/
inductive AdapterCall
  | addPeer (iface : String) (peer : Peer)
  | removePeer (iface : String) (publicKey : String) (ignoreIfMissing : Bool)
  | updatePeer (iface : String) (peer : Peer)
  | toggleInterface (iface : String) (isUp : Bool)
  | upInterface (iface : String) (privateKey : Option String) (listenPort : Nat) (address : String)
deriving Repr, DecidableEq

/-- Failure of a runtime adapter call: either an injected command
failure (from the fault schedule) or a semantic error per the adapter
contract. -/
inductive RtError
  | injected
  | noSuchInterface
  | peerNotFound
deriving Repr, DecidableEq

/-- The world outside the persisted document: the live runtime, the
fault schedules for adapter calls and state-file saves, the
`randomUUID()` draw sequence, the current timestamp, and the trace of
attempted mutating adapter calls. -/
structure World where
  runtime : List (String × RuntimeIface)
  faults : List Bool := []
  saveFaults : List Bool := []
  uuids : List String := []
  now : String := ""
  trace : List AdapterCall := []
deriving Repr, DecidableEq

/-- Runtime lookup by interface name (`getInterface` existence/peers view). -/
def lookupRt (rt : List (String × RuntimeIface)) (name : String) : Option RuntimeIface :=
  (rt.find? (fun p => p.1 == name)).map (·.2)

/-- Runtime map write. -/
def setRt (rt : List (String × RuntimeIface)) (name : String) (ri : RuntimeIface) :
    List (String × RuntimeIface) :=
  if rt.any (fun p => p.1 == name) then
    rt.map (fun p => if p.1 == name then (name, ri) else p)
  else rt ++ [(name, ri)]

/-- The runtime view of a managed peer passed to `wg set`. -/
def toRuntimePeer (p : Peer) : RuntimePeer :=
  { publicKey := p.publicKey, endpoint := p.endpoint, allowedIps := p.allowedIps,
    persistentKeepalive := p.persistentKeepalive }

/-- Set a peer in a runtime peer list (add is idempotent in effect:
an existing peer with the same public key is replaced). -/
def rtSetPeer (peers : List RuntimePeer) (p : RuntimePeer) : List RuntimePeer :=
  if peers.any (fun q => q.publicKey == p.publicKey) then
    peers.map (fun q => if q.publicKey == p.publicKey then p else q)
  else peers ++ [p]

/-- The effect of one mutating adapter call on the live runtime
state, modelled from the Runtime Adapter contract (§4.5) and matching
the staged `WireGuardAdapter` implementation: `addPeer` and
`updatePeer` set the peer (the implementation issues the same
`wg set` for both, idempotent in effect); `removePeer` drops it,
treating a missing peer as success only with `ignoreIfMissing`;
`toggleInterface` flips the link; `upInterface` ensures the link
exists, applies the port and sets it up.  Calls on a non-existent
interface fail. -/
def adapterEffect (rt : List (String × RuntimeIface)) :
    AdapterCall → Except RtError (List (String × RuntimeIface))
  | .addPeer name p =>
    match lookupRt rt name with
    | none => .error .noSuchInterface
    | some ri => .ok (setRt rt name { ri with peers := rtSetPeer ri.peers (toRuntimePeer p) })
  | .updatePeer name p =>
    match lookupRt rt name with
    | none => .error .noSuchInterface
    | some ri => .ok (setRt rt name { ri with peers := rtSetPeer ri.peers (toRuntimePeer p) })
  | .removePeer name pub ignore =>
    match lookupRt rt name with
    | none => .error .noSuchInterface
    | some ri =>
      if ri.peers.any (fun q => q.publicKey == pub) then
        .ok (setRt rt name { ri with peers := ri.peers.filter (fun q => q.publicKey != pub) })
      else if ignore then .ok rt
      else .error .peerNotFound
  | .toggleInterface name isUp =>
    match lookupRt rt name with
    | none => .error .noSuchInterface
    | some ri => .ok (setRt rt name { ri with up := isUp })
  | .upInterface name _ port _ =>
    match lookupRt rt name with
    | none => .ok (setRt rt name { up := true, listenPort := port, peers := [] })
    | some ri => .ok (setRt rt name { ri with up := true, listenPort := port })

/-- Attempt one mutating adapter call: the call is recorded in the
trace, one fault-schedule entry is consumed (an exhausted schedule
means success), and on success the effect is applied. -/
def adapterMutate (w : World) (c : AdapterCall) : Except RtError Unit × World :=
  let w1 : World := { w with trace := w.trace ++ [c], faults := w.faults.tail }
  if w.faults.headD false then (.error .injected, w1)
  else
    match adapterEffect w1.runtime c with
    | .error e => (.error e, w1)
    | .ok rt2 => (.ok (), { w1 with runtime := rt2 })

end WgMesh

namespace WgMesh

/-! ## Provisioning service (`src/lib/provisioning/service.ts`) -/

/-- A service failure.  `RevisionConflictError(currentRevision,
expectedRevision)` carries `details = {expected: current, received:
supplied}`; the other constructors stand for `"Interface not found"`,
a propagated adapter failure, and a failed state-file save. -/
inductive SvcError
  | revisionConflict (expected received : Nat)
  | interfaceNotFound
  | runtimeFailure (e : RtError)
  | persistFailure
deriving Repr, DecidableEq

/-- Error-code mapping of the `peers/apply` HTTP route: an error whose
`code` is `REVISION_CONFLICT` maps to 409 `REVISION_CONFLICT`; every
other error is returned as 500 `APPLY_FAILED`. -/
def applyRouteCode : SvcError → String
  | .revisionConflict _ _ => "REVISION_CONFLICT"
  | _ => "APPLY_FAILED"

/-- The parsed `patch` of an `update` operation
(`applyUpdateOperationSchema`): only `name`, `allowedIps`, `endpoint`
and `persistentKeepalive` exist in the schema (unknown keys are
stripped by `z.object`), each optional. -/
structure PeerPatch where
  name : Option String := none
  allowedIps : Option (List String) := none
  endpoint : Option String := none
  persistentKeepalive : Option Nat := none
deriving Repr, DecidableEq

/-- The JS spread `{...currentPeers[idx], ...operation.patch}`: every
key present in the patch overwrites the corresponding peer field. -/
def applyPatch (p : Peer) (patch : PeerPatch) : Peer :=
  { p with
    name := patch.name.getD p.name,
    allowedIps := patch.allowedIps.getD p.allowedIps,
    endpoint := match patch.endpoint with | some e => some e | none => p.endpoint,
    persistentKeepalive :=
      match patch.persistentKeepalive with | some k => some k | none => p.persistentKeepalive }

/-- One element of `operations` (`applyOperationSchema`). -/
inductive ApplyOperation
  | add (peer : Peer)
  | update (peerId : String) (patch : PeerPatch)
  | toggle (peerId : String) (isActive : Bool)
  | remove (peerId : String)
deriving Repr, DecidableEq

/-- `applyPeersRequestSchema`. -/
structure ApplyPeersRequest where
  revision : Nat
  dryRun : Bool := false
  operations : List ApplyOperation
deriving Repr, DecidableEq

/-- A scheduled runtime operation.  The source declares two
structurally identical types for this (`RuntimeOp` for the forward
schedule and `StackOp` for the rollback stack); one inductive serves
as both. -/
inductive RuntimeOp
  | add (peer : Peer)
  | remove (peer : Peer)
  | update (peer : Peer) (previous : Peer)
deriving Repr, DecidableEq

/-- The per-kind counters accumulated for the summary. -/
structure OpSummary where
  added : Nat := 0
  updated : Nat := 0
  toggled : Nat := 0
  removed : Nat := 0
deriving Repr, DecidableEq

/-- Accumulator of the operation loop of `applyPeerOperations`:
the in-memory peer list, the scheduled runtime ops and the counters. -/
structure Sched where
  currentPeers : List Peer
  runtimeOps : List RuntimeOp := []
  summary : OpSummary := {}
deriving Repr, DecidableEq

/-- One iteration of the `for (const operation of input.operations)`
loop: `add` appends (forcing `interface = name`) and schedules a
runtime add when active; `update` patches in place and schedules an
update carrying the previous value when the result is active;
`toggle` flips activity and schedules add/remove; `remove` drops the
peer and schedules a remove.  A missing target `peerId` is silently
skipped. -/
def schedStep (name : String) (st : Sched) (op : ApplyOperation) : Sched :=
  match op with
  | .add peer =>
    let newPeer := { peer with interface := some name }
    { currentPeers := st.currentPeers ++ [newPeer],
      runtimeOps := if newPeer.isActive then st.runtimeOps ++ [.add newPeer] else st.runtimeOps,
      summary := { st.summary with added := st.summary.added + 1 } }
  | .update pid patch =>
    match st.currentPeers.findIdx? (fun p => p.peerId == pid) with
    | none => st
    | some idx =>
      let previous := st.currentPeers.getD idx default
      let nextPeer := applyPatch previous patch
      { currentPeers := st.currentPeers.set idx nextPeer,
        runtimeOps :=
          if nextPeer.isActive then st.runtimeOps ++ [.update nextPeer previous] else st.runtimeOps,
        summary := { st.summary with updated := st.summary.updated + 1 } }
  | .toggle pid isActive =>
    match st.currentPeers.findIdx? (fun p => p.peerId == pid) with
    | none => st
    | some idx =>
      let updatedPeer := { st.currentPeers.getD idx default with isActive := isActive }
      { currentPeers := st.currentPeers.set idx updatedPeer,
        runtimeOps := st.runtimeOps ++ [if isActive then .add updatedPeer else .remove updatedPeer],
        summary := { st.summary with toggled := st.summary.toggled + 1 } }
  | .remove pid =>
    match st.currentPeers.findIdx? (fun p => p.peerId == pid) with
    | none => st
    | some idx =>
      let peerToRemove := st.currentPeers.getD idx default
      { currentPeers := st.currentPeers.eraseIdx idx,
        runtimeOps := st.runtimeOps ++ [.remove peerToRemove],
        summary := { st.summary with removed := st.summary.removed + 1 } }

/-- The whole operation loop. -/
def scheduleOps (name : String) (initialPeers : List Peer) (ops : List ApplyOperation) : Sched :=
  ops.foldl (schedStep name) { currentPeers := initialPeers }

/-- One line of the dry-run command plan, as formatted by the source. -/
def planLine (name : String) : RuntimeOp → String
  | .remove p => "[REMOVE] wg set " ++ name ++ " peer " ++ p.publicKey ++ " remove"
  | .add p =>
      "[ADD] wg set " ++ name ++ " peer " ++ p.publicKey ++ " allowed-ips " ++
        String.intercalate "," p.allowedIps
  | .update p _ =>
      "[UPDATE] wg set " ++ name ++ " peer " ++ p.publicKey ++ " allowed-ips " ++
        String.intercalate "," p.allowedIps

/-- Value returned by `applyPeerOperations` (the dry-run shape or the
applied shape; the source's `failed: 0` constant is omitted). -/
inductive ApplyResult
  | dry (currentRevision nextRevision : Nat) (plan : List String) (summary : OpSummary)
  | applied (revision : Nat) (summary : OpSummary)
deriving Repr, DecidableEq

/-- The adapter call issued for one scheduled runtime op (forward
direction): adds and updates carry the peer, removes pass
`ignoreIfMissing: true`. -/
def runtimeCall (name : String) : RuntimeOp → AdapterCall
  | .add p => .addPeer name p
  | .remove p => .removePeer name p.publicKey true
  | .update p _ => .updatePeer name p

/-- The compensating adapter call for one rollback-stack entry:
`add → remove(ignoreIfMissing)`, `remove → add`,
`update → update(previous)`. -/
def rollbackCall (name : String) : RuntimeOp → AdapterCall
  | .add p => .removePeer name p.publicKey true
  | .remove p => .addPeer name p
  | .update _ prev => .updatePeer name prev

/-- The forward execution loop: runtime ops execute in order; each
success is pushed onto the rollback stack (returned here in push
order); the first failure stops the loop and is returned. -/
def runOps (name : String) : World → List RuntimeOp → World × List RuntimeOp × Option RtError
  | w, [] => (w, [], none)
  | w, op :: rest =>
    match adapterMutate w (runtimeCall name op) with
    | (.error e, w1) => (w1, [], some e)
    | (.ok _, w1) =>
      let (w2, stack, err) := runOps name w1 rest
      (w2, op :: stack, err)

/-- `rollbackRuntime` from `applyPeerOperations`: pop the stack (last
pushed first) and attempt the compensating call for each entry; a
rollback call's own failure is logged and ignored, so every entry is
attempted. -/
def rollbackRuntime (name : String) (w : World) (stack : List RuntimeOp) : World :=
  stack.reverse.foldl (fun wa op => (adapterMutate wa (rollbackCall name op)).2) w

/-- The synthetic `InterfaceRecord` constructed when the target
interface exists in runtime but not in persisted state. -/
def syntheticRecord : InterfaceRecord :=
  { listenPort := 0, addressCidr := "unknown/24", revision := 0, isUp := true }

/-- `StateManager.update`: run the closure on the current document and
persist the result; a closure failure propagates without saving, and a
failed save (one `saveFaults` entry is consumed per attempted save)
discards the closure's result. -/
def smUpdate (w : World) (s : PersistedState)
    (f : PersistedState → Except SvcError (PersistedState × Nat)) :
    Except SvcError (PersistedState × Nat) × World :=
  match f s with
  | .error e => (.error e, w)
  | .ok res =>
    let w1 : World := { w with saveFaults := w.saveFaults.tail }
    if w.saveFaults.headD false then (.error .persistFailure, w1) else (.ok res, w1)

/-- The interface record the service works with: the persisted record
when present, else a synthetic one when the interface is visible in
runtime, else none (`"Interface not found"`). -/
def resolveIface (s : PersistedState) (rt : List (String × RuntimeIface)) (name : String) :
    Option InterfaceRecord :=
  match lookupIface s name with
  | some r => some r
  | none =>
    match lookupRt rt name with
    | some _ => some syntheticRecord
    | none => none

/-- The current revision the service asserts against: the persisted
revision, or 0 for a synthetic (runtime-only) interface. -/
def currentRevisionView (s : PersistedState) (rt : List (String × RuntimeIface))
    (name : String) : Option Nat :=
  (resolveIface s rt name).map (·.revision)

/-- `applyPeerOperations` from `service.ts`.  Returns the result, the
final persisted document and the final world. -/
def applyPeerOperations (name : String) (input : ApplyPeersRequest)
    (s0 : PersistedState) (w0 : World) :
    Except SvcError ApplyResult × PersistedState × World :=
  match resolveIface s0 w0.runtime name with
  | none => (.error .interfaceNotFound, s0, w0)
  | some ifaceState =>
    if ifaceState.revision ≠ input.revision then
      (.error (.revisionConflict ifaceState.revision input.revision), s0, w0)
    else
      let sched := scheduleOps name (getPeersForInterface s0 name) input.operations
      if input.dryRun then
        (.ok (.dry ifaceState.revision (ifaceState.revision + 1)
          (sched.runtimeOps.map (planLine name)) sched.summary), s0, w0)
      else
        let (w1, stack, err?) := runOps name w0 sched.runtimeOps
        match err? with
        | some e => (.error (.runtimeFailure e), s0, rollbackRuntime name w1 stack)
        | none =>
          let closure : PersistedState → Except SvcError (PersistedState × Nat) := fun s =>
            match resolveIface s w1.runtime name with
            | none => .error .interfaceNotFound
            | some iface =>
              if iface.revision ≠ input.revision then
                .error (.revisionConflict iface.revision input.revision)
              else
                .ok ({ s with
                  interfaces := setIface s.interfaces name { iface with revision := iface.revision + 1 },
                  peers := s.peers.filter (keepsOtherPeer name) ++ sched.currentPeers,
                  updatedAt := w1.now }, iface.revision + 1)
          match smUpdate w1 s0 closure with
          | (.error e, w2) => (.error e, s0, rollbackRuntime name w2 stack)
          | (.ok (s1, rev), w2) => (.ok (.applied rev sched.summary), s1, w2)

end WgMesh

namespace WgMesh

/-- `toggleInterfaceRequestSchema`. -/
structure ToggleInterfaceRequest where
  revision : Nat
  isUp : Bool
  dryRun : Bool := false
deriving Repr, DecidableEq

/-- Value returned by `toggleInterfaceState`. -/
structure ToggleResult where
  name : String
  isUp : Bool
  revision : Nat
deriving Repr, DecidableEq

/-- `toggleInterfaceState` from `service.ts`: revision check, dry-run
echo, runtime toggle, then the state update; if the state update
fails the runtime is toggled back (that rollback's own failure is
swallowed) and the original error propagates. -/
def toggleInterfaceState (name : String) (input : ToggleInterfaceRequest)
    (s0 : PersistedState) (w0 : World) :
    Except SvcError ToggleResult × PersistedState × World :=
  match resolveIface s0 w0.runtime name with
  | none => (.error .interfaceNotFound, s0, w0)
  | some iface =>
    if iface.revision ≠ input.revision then
      (.error (.revisionConflict iface.revision input.revision), s0, w0)
    else if input.dryRun then
      (.ok ⟨name, iface.isUp, iface.revision⟩, s0, w0)
    else
      match adapterMutate w0 (.toggleInterface name input.isUp) with
      | (.error e, w1) => (.error (.runtimeFailure e), s0, w1)
      | (.ok _, w1) =>
        let closure : PersistedState → Except SvcError (PersistedState × Nat) := fun s =>
          match resolveIface s w1.runtime name with
          | none => .error .interfaceNotFound
          | some locked =>
            if locked.revision ≠ input.revision then
              .error (.revisionConflict locked.revision input.revision)
            else
              .ok ({ s with
                interfaces := setIface s.interfaces name
                  { locked with isUp := input.isUp, revision := locked.revision + 1 },
                updatedAt := w1.now }, locked.revision + 1)
        match smUpdate w1 s0 closure with
        | (.ok (s1, rev), w2) => (.ok ⟨name, input.isUp, rev⟩, s1, w2)
        | (.error e, w2) =>
          (.error e, s0, (adapterMutate w2 (.toggleInterface name (!input.isUp))).2)

/-- `reconcileRequestSchema` mode. -/
inductive ReconcileMode
  | state_to_runtime
  | runtime_to_state
deriving Repr, DecidableEq

/-- `reconcileRequestSchema`. -/
structure ReconcileRequest where
  revision : Nat
  mode : ReconcileMode
deriving Repr, DecidableEq

/-- Value returned by `reconcileInterface` (`details` flattened). -/
structure ReconcileResult where
  driftFound : Bool
  fixed : Bool
  revision : Nat
  missingInRuntime : Nat
  extraInRuntime : Nat
deriving Repr, DecidableEq

/-- Draw the next `randomUUID()` value. -/
def popUuid (w : World) : String × World :=
  (w.uuids.headD "", { w with uuids := w.uuids.tail })

/-- The synthetic managed peer built from a zombie runtime peer
(`name = "runtime-" + pub[:8]`, fresh uuid, active, scoped to the
interface). -/
def zombiePeer (name : String) (u : String) (z : RuntimePeer) : Peer :=
  { peerId := u, name := "runtime-" ++ z.publicKey.take 8, publicKey := z.publicKey,
    allowedIps := z.allowedIps, endpoint := z.endpoint,
    persistentKeepalive := z.persistentKeepalive, isActive := true, interface := some name }

/-- The `state_to_runtime` loop over peers missing from runtime:
`addPeer` each, pushing a rollback entry and counting a fix; the
first failure stops the loop. -/
def reconcileAdds (name : String) :
    World → List Peer → World × List RuntimeOp × Nat × Option RtError
  | w, [] => (w, [], 0, none)
  | w, p :: rest =>
    match adapterMutate w (.addPeer name p) with
    | (.error e, w1) => (w1, [], 0, some e)
    | (.ok _, w1) =>
      match reconcileAdds name w1 rest with
      | (w2, stack, k, err) => (w2, .add p :: stack, k + 1, err)

/-- The `state_to_runtime` loop over zombies: build the synthetic
peer (drawing its uuid), `removePeer(ignoreIfMissing)` the zombie,
push a rollback entry carrying the synthetic peer and count a fix;
the first failure stops the loop. -/
def reconcileRemovals (name : String) :
    World → List RuntimePeer → World × List RuntimeOp × Nat × Option RtError
  | w, [] => (w, [], 0, none)
  | w, z :: rest =>
    let (u, w1) := popUuid w
    let sp := zombiePeer name u z
    match adapterMutate w1 (.removePeer name z.publicKey true) with
    | (.error e, w2) => (w2, [], 0, some e)
    | (.ok _, w2) =>
      match reconcileRemovals name w2 rest with
      | (w3, stack, k, err) => (w3, .remove sp :: stack, k + 1, err)

/-- The rollback loop of `reconcileInterface` (`state_to_runtime`
failure path): unwind the stack last-first, compensating `add` with
`removePeer(ignoreIfMissing)` and everything else with `addPeer`;
each compensation's own failure is logged and ignored. -/
def reconcileRollback (name : String) (w : World) (stack : List RuntimeOp) : World :=
  stack.reverse.foldl
    (fun wa op =>
      match op with
      | .add p => (adapterMutate wa (.removePeer name p.publicKey true)).2
      | .remove p => (adapterMutate wa (.addPeer name p)).2
      | .update p _ => (adapterMutate wa (.addPeer name p)).2) w

/-- `reconcileInterface` from `service.ts`: revision check, drift
computation (`missingInRuntime` = active managed peers not observed;
`zombies` = observed peers not managed), then either the
`state_to_runtime` fix loops with rollback, or, for
`runtime_to_state`, a state-only update marking unobserved active
peers inactive and appending a synthetic peer per zombie.  The
revision is bumped only when something changed.  The zombies' uuids
are drawn in zombie order (in the source the draw happens inside the
update closure; the values are the same). -/
def reconcileInterface (name : String) (input : ReconcileRequest)
    (s0 : PersistedState) (w0 : World) :
    Except SvcError ReconcileResult × PersistedState × World :=
  match resolveIface s0 w0.runtime name with
  | none => (.error .interfaceNotFound, s0, w0)
  | some iface =>
    if iface.revision ≠ input.revision then
      (.error (.revisionConflict iface.revision input.revision), s0, w0)
    else
      let interfacePeers := getPeersForInterface s0 name
      let runtimePeers := ((lookupRt w0.runtime name).map (·.peers)).getD []
      let runtimeKeys := runtimePeers.map (·.publicKey)
      let stateKeys := interfacePeers.map (·.publicKey)
      let missingInRuntime :=
        interfacePeers.filter (fun p => p.isActive && !runtimeKeys.contains p.publicKey)
      let zombies := runtimePeers.filter (fun r => !stateKeys.contains r.publicKey)
      let driftFound := missingInRuntime.length > 0 || zombies.length > 0
      let fixStep :
          World × Nat × Option (World × List RuntimeOp × RtError) :=
        match input.mode with
        | .state_to_runtime =>
          match reconcileAdds name w0 missingInRuntime with
          | (w1, stack1, k1, some e) => (w1, k1, some (w1, stack1, e))
          | (w1, stack1, k1, none) =>
            match reconcileRemovals name w1 zombies with
            | (w2, stack2, k2, some e) => (w2, k1 + k2, some (w2, stack1 ++ stack2, e))
            | (w2, _stack2, k2, none) => (w2, k1 + k2, none)
        | .runtime_to_state => (w0, 0, none)
      match fixStep with
      | (_, _, some (wf, stack, e)) =>
        (.error (.runtimeFailure e), s0, reconcileRollback name wf stack)
      | (w1, fixedRuntime, none) =>
        let (zps, w2) :=
          match input.mode with
          | .runtime_to_state =>
            zombies.foldl
              (fun (acc : List Peer × World) z =>
                let (u, wz) := popUuid acc.2
                (acc.1 ++ [zombiePeer name u z], wz))
              ([], w1)
          | .state_to_runtime => ([], w1)
        let closure : PersistedState → Except SvcError (PersistedState × Nat) := fun s =>
          match resolveIface s w2.runtime name with
          | none => .error .interfaceNotFound
          | some locked =>
            if locked.revision ≠ input.revision then
              .error (.revisionConflict locked.revision input.revision)
            else
              match input.mode with
              | .runtime_to_state =>
                let nextPeers := (getPeersForInterface s name).map (fun p =>
                  if p.isActive && !runtimeKeys.contains p.publicKey then
                    { p with isActive := false }
                  else p)
                let inactivated := ((getPeersForInterface s name).filter (fun p =>
                  p.isActive && !runtimeKeys.contains p.publicKey)).length
                let changed := inactivated + zps.length > 0
                .ok ({ s with
                  interfaces := setIface s.interfaces name
                    (if changed then { locked with revision := locked.revision + 1 } else locked),
                  peers := s.peers.filter (keepsOtherPeer name) ++ nextPeers ++ zps,
                  updatedAt := if changed then w2.now else s.updatedAt },
                  if changed then locked.revision + 1 else locked.revision)
              | .state_to_runtime =>
                let changed := fixedRuntime > 0
                .ok ({ s with
                  interfaces := setIface s.interfaces name
                    (if changed then { locked with revision := locked.revision + 1 } else locked),
                  updatedAt := if changed then w2.now else s.updatedAt },
                  if changed then locked.revision + 1 else locked.revision)
        let fixedTotal :=
          match input.mode with
          | .state_to_runtime => fixedRuntime
          | .runtime_to_state =>
            ((getPeersForInterface s0 name).filter (fun p =>
              p.isActive && !runtimeKeys.contains p.publicKey)).length + zps.length
        match smUpdate w2 s0 closure with
        | (.error e, w3) => (.error e, s0, w3)
        | (.ok (s1, rev), w3) =>
          (.ok { driftFound := driftFound, fixed := fixedTotal > 0, revision := rev,
                 missingInRuntime := missingInRuntime.length,
                 extraInRuntime := zombies.length }, s1, w3)

end WgMesh

namespace WgMesh

/-- Modelled from the spec: `DeployConfig.interface` — the interface
block the deploy route passes to `deployMeshConfig` (`{name,
addressCidr, listenPort, privateKey, publicKey}`; the `DeployConfig`
type lives in `contracts.ts`, whose deploy part is not among the
provided sources, so the shape follows §4.7(6) and the route caller). -/
structure DeployIface where
  name : String
  addressCidr : String
  listenPort : Nat
  privateKey : Option String := none
  publicKey : Option String := none
deriving Repr, DecidableEq

/-- Modelled from the spec: one peer of a `DeployConfig`, as built by
the deploy route (`{name, publicKey, allowedIps, endpoint?,
presharedKey?}`). -/
structure DeployPeer where
  name : String
  publicKey : String
  allowedIps : List String
  endpoint : Option String := none
  presharedKey : Option String := none
deriving Repr, DecidableEq

/-- Modelled from the spec: `deployMeshConfig`'s input `{interface,
peers}` — note it carries no revision field (§4.7(6) and the route
caller agree). -/
structure DeployConfig where
  interface : DeployIface
  peers : List DeployPeer
deriving Repr, DecidableEq

/-- The managed peers `deployMeshConfig` builds from its input: fresh
uuid, keepalive 25, active, scoped to the interface (the input's
`presharedKey` is carried along in the source but is not part of the
peer schema and is dropped here). -/
def mkDeployPeers (name : String) : World → List DeployPeer → List Peer × World
  | w, [] => ([], w)
  | w, p :: rest =>
    let (u, w1) := popUuid w
    let (tail, w2) := mkDeployPeers name w1 rest
    ({ peerId := u, name := p.name, publicKey := p.publicKey, allowedIps := p.allowedIps,
       endpoint := p.endpoint, persistentKeepalive := some 25, isActive := true,
       interface := some name } :: tail, w2)

/-- Attempt a sequence of mutating adapter calls, stopping at the
first failure. -/
def mutateSeq : World → List AdapterCall → Except RtError Unit × World
  | w, [] => (.ok (), w)
  | w, c :: rest =>
    match adapterMutate w c with
    | (.error e, w1) => (.error e, w1)
    | (.ok _, w1) => mutateSeq w1 rest

/-- `deployMeshConfig` from `service.ts`: build the new peers, then —
with no revision assertion anywhere — persist the replaced interface
record (revision `(old?.revision || 0) + 1`, `isUp = true`) and peer
set, then bring the interface up, purge every observed runtime peer
and add the new peers.  Runtime failures after the persist propagate
without rollback. -/
def deployMeshConfig (config : DeployConfig) (s0 : PersistedState) (w0 : World) :
    Except SvcError Unit × PersistedState × World :=
  let name := config.interface.name
  let (newPeers, w1) := mkDeployPeers name w0 config.peers
  let closure : PersistedState → Except SvcError (PersistedState × Nat) := fun s =>
    let newRev := (((lookupIface s name).map (·.revision)).getD 0) + 1
    .ok ({ s with
      interfaces := setIface s.interfaces name
        { listenPort := config.interface.listenPort,
          addressCidr := config.interface.addressCidr,
          revision := newRev, isUp := true,
          privateKey := config.interface.privateKey },
      peers := s.peers.filter (keepsOtherPeer name) ++ newPeers,
      updatedAt := w1.now }, newRev)
  match smUpdate w1 s0 closure with
  | (.error e, w2) => (.error e, s0, w2)
  | (.ok (s1, _), w2) =>
    match adapterMutate w2
        (.upInterface name config.interface.privateKey config.interface.listenPort
          config.interface.addressCidr) with
    | (.error e, w3) => (.error (.runtimeFailure e), s1, w3)
    | (.ok _, w3) =>
      let runtimePeers := ((lookupRt w3.runtime name).map (·.peers)).getD []
      match mutateSeq w3 (runtimePeers.map (fun rp => .removePeer name rp.publicKey true)) with
      | (.error e, w4) => (.error (.runtimeFailure e), s1, w4)
      | (.ok _, w4) =>
        match mutateSeq w4 (newPeers.map (fun p => .addPeer name p)) with
        | (.error e, w5) => (.error (.runtimeFailure e), s1, w5)
        | (.ok _, w5) => (.ok (), s1, w5)

end WgMesh

namespace WgMesh

/-! ## Shared concrete sample data for witnesses and counterexamples -/

/-- A managed peer `P1`, active on `wg0`. -/
def samplePeer1 : Peer :=
  { peerId := "p1", name := "P1", publicKey := "PUB1", allowedIps := ["10.0.0.1/32"],
    isActive := true, interface := some "wg0" }

/-- A managed peer `P2`. -/
def samplePeer2 : Peer :=
  { peerId := "p2", name := "P2", publicKey := "PUB2", allowedIps := ["10.0.0.2/32"],
    isActive := true }

/-- A managed peer `P3`. -/
def samplePeer3 : Peer :=
  { peerId := "p3", name := "P3", publicKey := "PUB3", allowedIps := ["10.0.0.3/32"],
    isActive := true }

/-- An interface record for `wg0` at revision 3. -/
def sampleRecord : InterfaceRecord :=
  { listenPort := 51820, addressCidr := "10.0.0.0/24", revision := 3, isUp := true }

/-- A persisted document holding `wg0` at revision 3 with peer `P1`. -/
def sampleState : PersistedState :=
  { version := 1, updatedAt := "t0", interfaces := [("wg0", sampleRecord)],
    peers := [samplePeer1] }

/-- A runtime world where `wg0` exists and carries `P1`. -/
def sampleWorld : World :=
  { runtime := [("wg0", { up := true, listenPort := 51820, peers := [toRuntimePeer samplePeer1] })],
    now := "t1" }

/-- A concrete x25519 public-key derivation oracle. -/
def sampleDerive : String → Except GenErr String := fun s => .ok ("pub-of-" ++ s)

/-- A concrete keypair-generation oracle. -/
def sampleGen : Nat → KeyPair := fun i => ⟨"genpriv" ++ toString i, "genpub" ++ toString i⟩

/-! ## C7 — deterministic PSK derivation -/

set_option maxRecDepth 40000 in
/-- C7 counterexample: the shipped `deriveDeterministicPsk` trims both
names before sorting and hashing, so on the names `" b"` and `"a"` it
disagrees with the spec's formula
`base64(SHA-256("wg-mesh-psk::" + sort(a,b).join("::")))` applied to
the names as given: the code hashes `"wg-mesh-psk::a::b"` while the
formula hashes `"wg-mesh-psk:: b::a"`. -/
theorem c7_counterexample :
    deriveDeterministicPsk " b" "a" ≠ pskSpecFormula " b" "a" := by decide

/-- C7 (amended): the default PSK derivation is byte-compatible with
`base64(SHA-256("wg-mesh-psk::" + sort(a,b).join("::")))` applied to
the *trimmed* input names: for every pair of names,
`deriveDeterministicPsk a b = pskSpecFormula (jsTrim a) (jsTrim b)`. -/
theorem c7_trimmed_byte_compat (a b : String) :
    deriveDeterministicPsk a b = pskSpecFormula (jsTrim a) (jsTrim b) := rfl

/-! ## C10 — update patches cannot touch identity fields -/

/-- The fields of a peer an update operation must never change. -/
def protectedFields (p : Peer) : String × String × Option String × Bool × Option String :=
  (p.peerId, p.publicKey, p.privateKey, p.isActive, p.interface)

/-- Setting an index to a value with the same image leaves the mapped
list unchanged. -/
theorem map_set_congr {α β : Type _} (f : α → β) (d : α) :
    ∀ (l : List α) (i : Nat) (x : α), f x = f (l.getD i d) → (l.set i x).map f = l.map f
  | [], _, _, _ => rfl
  | a :: l, 0, x, h => by
      simp only [List.getD_cons_zero] at h
      simp [h]
  | a :: l, i + 1, x, h => by
      simp only [List.getD_cons_succ] at h
      simp only [List.set_cons_succ, List.map_cons]
      rw [map_set_congr f d l i x h]

/-- C10: a schema-valid `update` patch holds only `name`, `allowedIps`,
`endpoint` and `persistentKeepalive`, so applying it never changes the
target peer's `peerId`, `publicKey`, `privateKey`, `isActive` or
`interface`; consequently processing an update operation leaves the
protected fields of every peer of the interface untouched. -/
theorem c10_update_preserves_identity (p : Peer) (patch : PeerPatch)
    (s : PersistedState) (name pid : String) :
    protectedFields (applyPatch p patch) = protectedFields p ∧
    (scheduleOps name (getPeersForInterface s name) [.update pid patch]).currentPeers.map
        protectedFields
      = (getPeersForInterface s name).map protectedFields := by
  constructor
  · simp [protectedFields, applyPatch]
  · show (schedStep name { currentPeers := getPeersForInterface s name } (.update pid patch)).currentPeers.map protectedFields = _
    simp only [schedStep]
    cases hidx : (getPeersForInterface s name).findIdx? (fun q => q.peerId == pid) with
    | none => rfl
    | some idx =>
      simp only
      exact map_set_congr protectedFields default _ idx _
        (by simp [protectedFields, applyPatch])

end WgMesh

namespace WgMesh

/-! ## C6 — CIDR parsing -/

/-- Decimal value of a digit string (what JS `Number` yields on the
digit-string sub-domain). -/
def digitsVal (s : String) : Nat :=
  s.data.foldl (fun acc c => acc * 10 + (c.toNat - 48)) 0

/-- On digit strings, `jsNumDigits` is total. -/
theorem jsNumDigits_of_digits {s : String} (h : s.data.all Char.isDigit = true) :
    jsNumDigits s = some (digitsVal s) := by
  simp [jsNumDigits, digitsVal, h]

/-- The `>>> 0` base an IPv4 string of four numeric parts produces
(spec-side rendering of the `ipToInt` arithmetic). -/
def ipBaseOf (a b c d : String) : Nat :=
  ((jsShl (digitsVal a) 24 + jsShl (digitsVal b) 16 + jsShl (digitsVal c) 8 +
    (digitsVal d : Int)) % 4294967296).toNat

/-- `ipToInt` succeeds on any address made of four digit-string parts,
whatever their values. -/
theorem ipToInt_digits {ipStr a b c d : String}
    (hip : jsSplit ipStr '.' = [a, b, c, d])
    (ha : a.data.all Char.isDigit = true) (hb : b.data.all Char.isDigit = true)
    (hc : c.data.all Char.isDigit = true) (hd : d.data.all Char.isDigit = true) :
    ipToInt ipStr = .ok (ipBaseOf a b c d) := by
  unfold ipToInt
  rw [hip]
  simp [jsNumDigits_of_digits, ha, hb, hc, hd, ipBaseOf]

/-- C6 counterexample: the claim says parsing fails when an octet is
outside `[0,255]`, but `ipToInt` never range-checks octets:
`"10.0.0.300/24"` parses successfully (the excess wraps into the
32-bit base, `10.0.1.44`). -/
theorem c6_counterexample :
    parseCidr "10.0.0.300/24" =
      .ok { base := 167772460, prefixLen := 24, size := 256, last := 167772715 } := by
  decide

/-- The base computed from an address's dot-parts (meaningful when
there are exactly four). -/
def ipBase4 (parts : List String) : Nat :=
  ipBaseOf (parts.getD 0 "") (parts.getD 1 "") (parts.getD 2 "") (parts.getD 3 "")

/-- `ipToInt` fails with the address error whenever the address does
not split into exactly four parts (here all parts are digit strings,
so the part count is the only possible reason). -/
theorem ipToInt_digits_not4 {ip : String}
    (hd : ∀ t ∈ jsSplit ip '.', t.data.all Char.isDigit = true)
    (h4 : (jsSplit ip '.').length ≠ 4) :
    ipToInt ip = .error "IPv4 adresi gecersiz." := by
  unfold ipToInt
  rcases hl : jsSplit ip '.' with _ | ⟨t1, _ | ⟨t2, _ | ⟨t3, _ | ⟨t4, _ | ⟨t5, ts⟩⟩⟩⟩⟩
  · rfl
  · rw [hl] at hd
    rw [List.map_cons, List.map_nil, jsNumDigits_of_digits (hd t1 (by simp))]
  · rw [hl] at hd
    rw [List.map_cons, List.map_cons, List.map_nil,
      jsNumDigits_of_digits (hd t1 (by simp)), jsNumDigits_of_digits (hd t2 (by simp))]
  · rw [hl] at hd
    rw [List.map_cons, List.map_cons, List.map_cons, List.map_nil,
      jsNumDigits_of_digits (hd t1 (by simp)), jsNumDigits_of_digits (hd t2 (by simp)),
      jsNumDigits_of_digits (hd t3 (by simp))]
  · rw [hl] at h4
    simp at h4
  · rw [hl] at hd
    rw [List.map_cons, List.map_cons, List.map_cons, List.map_cons, List.map_cons,
      jsNumDigits_of_digits (hd t1 (by simp)), jsNumDigits_of_digits (hd t2 (by simp)),
      jsNumDigits_of_digits (hd t3 (by simp)), jsNumDigits_of_digits (hd t4 (by simp))]

/-- C6 (amended): on the digit-string sub-domain of JS `Number`
(every dot-part of the address and the prefix part — when present —
made only of digits), `parseCidr` succeeds exactly when a prefix part
exists (the input contains a `/`), the address part is non-empty, the
prefix value lies in `[8,30]`, the address splits into exactly four
parts, and the computed `last` does not exceed `MAX_IPV4`; the
success value is `{base, prefix, size = 2^(32-prefix),
last = base+size-1}`.  Octet values are NOT range-checked:
out-of-range octets wrap through the 32-bit shift arithmetic instead
of failing.  Failure is exactly the negation of the conjunction:
empty address, missing or out-of-range prefix, wrong number of
address parts, or overflow past `MAX_IPV4`. -/
theorem c6_amended (s : String) (r : ParsedCidr)
    (hdigits : ∀ t ∈ jsSplit ((jsSplit s '/').headD "") '.', t.data.all Char.isDigit = true)
    (hpd : ((jsSplit s '/').getD 1 "").data.all Char.isDigit = true) :
    parseCidr s = .ok r ↔
      (2 ≤ (jsSplit s '/').length ∧
        (jsSplit s '/').headD "" ≠ "" ∧
        8 ≤ digitsVal ((jsSplit s '/').getD 1 "") ∧
        digitsVal ((jsSplit s '/').getD 1 "") ≤ 30 ∧
        (jsSplit ((jsSplit s '/').headD "") '.').length = 4 ∧
        ipBase4 (jsSplit ((jsSplit s '/').headD "") '.') +
            2 ^ (32 - digitsVal ((jsSplit s '/').getD 1 "")) - 1 ≤ maxIpv4 ∧
        r = { base := ipBase4 (jsSplit ((jsSplit s '/').headD "") '.'),
              prefixLen := digitsVal ((jsSplit s '/').getD 1 ""),
              size := 2 ^ (32 - digitsVal ((jsSplit s '/').getD 1 "")),
              last := ipBase4 (jsSplit ((jsSplit s '/').headD "") '.') +
                2 ^ (32 - digitsVal ((jsSplit s '/').getD 1 "")) - 1 }) := by
  unfold parseCidr
  rcases hps : jsSplit s '/' with _ | ⟨ip, _ | ⟨p, rest2⟩⟩
  · simp
  · simp
  · rw [hps] at hdigits hpd
    simp only [List.headD_cons, List.getD_cons_succ, List.getD_cons_zero] at hdigits hpd ⊢
    rw [jsNumDigits_of_digits hpd]
    dsimp only
    by_cases hip0 : ip = ""
    · rw [if_pos (Or.inl hip0)]
      exact iff_of_false (by simp) (fun hc => hc.2.1 hip0)
    · by_cases h8 : digitsVal p < 8
      · rw [if_pos (Or.inr (Or.inl h8))]
        exact iff_of_false (by simp) (fun hc => absurd hc.2.2.1 (by omega))
      · by_cases h30 : 30 < digitsVal p
        · rw [if_pos (Or.inr (Or.inr h30))]
          exact iff_of_false (by simp) (fun hc => absurd hc.2.2.2.1 (by omega))
        · rw [if_neg (by simp [hip0, h8, h30])]
          by_cases h4 : (jsSplit ip '.').length = 4
          · rcases hip4 : jsSplit ip '.' with _ | ⟨t1, _ | ⟨t2, _ | ⟨t3, _ | ⟨t4, _ | ⟨t5, ts⟩⟩⟩⟩⟩ <;>
              rw [hip4] at h4 <;> try simp at h4
            rw [hip4] at hdigits
            rw [ipToInt_digits hip4 (hdigits t1 (by simp)) (hdigits t2 (by simp))
              (hdigits t3 (by simp)) (hdigits t4 (by simp))]
            dsimp only
            by_cases hov : maxIpv4 < ipBaseOf t1 t2 t3 t4 + 2 ^ (32 - digitsVal p) - 1
            · rw [if_pos hov]
              exact iff_of_false (by simp)
                (fun hc => absurd hc.2.2.2.2.2.1 (not_le.mpr hov))
            · rw [if_neg hov]
              constructor
              · intro h
                injection h with h
                exact ⟨by simp, hip0, by omega, by omega, rfl, not_lt.mp hov, h.symm⟩
              · rintro ⟨-, -, -, -, -, -, rfl⟩
                rfl
          · rw [ipToInt_digits_not4 hdigits h4]
            dsimp only
            exact iff_of_false (by simp) (fun hc => h4 hc.2.2.2.2.1)

/-- C6 witness: the amended characterization applied to
`"10.0.0.300/24"`, whose dot-parts and prefix part are digit
strings; all success conditions hold there even though the octet
`300` is out of `[0,255]`. -/
theorem c6_amended_witness :
    ((∀ t ∈ jsSplit ((jsSplit "10.0.0.300/24" '/').headD "") '.',
        t.data.all Char.isDigit = true) ∧
      ((jsSplit "10.0.0.300/24" '/').getD 1 "").data.all Char.isDigit = true) ∧
    (parseCidr "10.0.0.300/24" = .ok ⟨167772460, 24, 256, 167772715⟩ ↔
      (2 ≤ (jsSplit "10.0.0.300/24" '/').length ∧
        (jsSplit "10.0.0.300/24" '/').headD "" ≠ "" ∧
        8 ≤ digitsVal ((jsSplit "10.0.0.300/24" '/').getD 1 "") ∧
        digitsVal ((jsSplit "10.0.0.300/24" '/').getD 1 "") ≤ 30 ∧
        (jsSplit ((jsSplit "10.0.0.300/24" '/').headD "") '.').length = 4 ∧
        ipBase4 (jsSplit ((jsSplit "10.0.0.300/24" '/').headD "") '.') +
            2 ^ (32 - digitsVal ((jsSplit "10.0.0.300/24" '/').getD 1 "")) - 1 ≤ maxIpv4 ∧
        (⟨167772460, 24, 256, 167772715⟩ : ParsedCidr) =
          { base := ipBase4 (jsSplit ((jsSplit "10.0.0.300/24" '/').headD "") '.'),
            prefixLen := digitsVal ((jsSplit "10.0.0.300/24" '/').getD 1 ""),
            size := 2 ^ (32 - digitsVal ((jsSplit "10.0.0.300/24" '/').getD 1 "")),
            last := ipBase4 (jsSplit ((jsSplit "10.0.0.300/24" '/').headD "") '.') +
              2 ^ (32 - digitsVal ((jsSplit "10.0.0.300/24" '/').getD 1 "")) - 1 })) :=
  ⟨⟨by decide, by decide⟩,
    c6_amended "10.0.0.300/24" ⟨167772460, 24, 256, 167772715⟩ (by decide) (by decide)⟩

/-! ## C5 — /30 capacity -/

/-- Shape facts every successful `parseCidr` result satisfies. -/
theorem parseCidr_ok {s : String} {r : ParsedCidr} (h : parseCidr s = .ok r) :
    8 ≤ r.prefixLen ∧ r.prefixLen ≤ 30 ∧ r.size = 2 ^ (32 - r.prefixLen) ∧
    r.last = r.base + r.size - 1 ∧ r.last ≤ maxIpv4 := by
  simp only [parseCidr] at h
  split at h
  · exact absurd h (by simp)
  · next pfx heq =>
    split at h
    · exact absurd h (by simp)
    · next hrange =>
      split at h
      · exact absurd h (by simp)
      · next base hip =>
        split at h
        · exact absurd h (by simp)
        · next hle =>
          injection h with h
          subst h
          push_neg at hrange hle
          refine ⟨hrange.2.1, ?_, rfl, rfl, ?_⟩ <;> dsimp only <;> omega

/-- A client node used in concrete scenarios. -/
def sampleNode : NodeInput :=
  { id := "n1", name := "N1", publicKey := some "PK1", privateKey := some "SK1",
    endpoint := "1.1.1.1", listenPort := 51820 }

/-- A 1-node, 0-client payload on a `/30` network. -/
def samplePayload30 : GeneratePayload :=
  { networkCidr := "10.0.0.0/30", interfaceName := "wg0", endpointVersion := .ipv4,
    persistentKeepalive := 25, includeIpForwarding := false, enableBabel := false,
    autoGenerateKeys := false, nodes := [sampleNode], clients := [],
    gatewayNodeNames := [] }

/-- C5 counterexample: the claim (and spec §8) say a `/30` network
with 1 node and 0 clients must resolve successfully, but the client
capacity check `base+101+|clients| ≤ last` runs even with zero
clients and `base+101 > base+3 = last`, so resolution fails with
`CapacityExceeded` (`"Client sayisi CIDR'a sigmiyor."`). -/
theorem c5_counterexample :
    resolveMeshState sampleGen sampleDerive samplePayload30 = .error .clientCapacity := by
  decide

/-- C5 (amended): for every payload whose CIDR parses with prefix 30
and which has exactly one node, resolution fails with the
client-range `CapacityExceeded` error regardless of the number of
clients (in particular with 0 and with 2 clients): the node check
`base+2 ≤ base+3` passes but `base+101+|clients| ≤ base+3` never
holds. -/
theorem c5_amended (gen : Nat → KeyPair) (dp : String → Except GenErr String)
    (payload : GeneratePayload) (r : ParsedCidr)
    (hn : payload.nodes.length = 1)
    (hcn : ¬ payload.networkCidr.length = 0)
    (hif : ¬ (jsTrim payload.interfaceName).length = 0)
    (hp : parseCidr payload.networkCidr = .ok r)
    (h30 : r.prefixLen = 30) :
    resolveMeshState gen dp payload = .error .clientCapacity := by
  obtain ⟨h8, h30le, hsize, hlast, hmax⟩ := parseCidr_ok hp
  rw [h30] at hsize
  norm_num at hsize
  unfold resolveMeshState
  rw [hn, hp]
  rw [if_neg (by omega : ¬(1 = 0)), if_neg hcn, if_neg hif]
  dsimp only
  rw [if_neg (by omega : ¬¬(r.base + 1 + 1 ≤ r.last)), if_pos (by omega)]

/-- C5 witness: the amended theorem applied to the concrete `/30`
payload with 1 node and 0 clients. -/
theorem c5_amended_witness :
    (samplePayload30.nodes.length = 1 ∧
      parseCidr samplePayload30.networkCidr = .ok ⟨167772160, 30, 4, 167772163⟩) ∧
    resolveMeshState sampleGen sampleDerive samplePayload30 = .error .clientCapacity :=
  ⟨⟨by decide, by decide⟩,
    c5_amended sampleGen sampleDerive samplePayload30 ⟨167772160, 30, 4, 167772163⟩
      (by decide) (by decide) (by decide) (by decide) rfl⟩

/-! ## C4 — key filling -/

/-- A 1-node payload with `autoGenerateKeys` off and no keys at all. -/
def samplePayloadNoKeys : GeneratePayload :=
  { networkCidr := "10.0.0.0/24", interfaceName := "wg0", endpointVersion := .ipv4,
    persistentKeepalive := 25, includeIpForwarding := false, enableBabel := false,
    autoGenerateKeys := false,
    nodes := [{ id := "n1", name := "N1", publicKey := none, privateKey := none,
                endpoint := "1.1.1.1", listenPort := 51820 }],
    clients := [], gatewayNodeNames := [] }

/-- C4 counterexample: the claim says a peer with a missing key (here:
both keys absent, `autoGenerateKeys` off) makes resolution fail with
`MissingKey`, but `resolveMeshState` (`src/lib/generate.ts`) has no
such branch: resolution succeeds and the node keeps both keys absent. -/
theorem c4_counterexample :
    (resolveMeshState sampleGen sampleDerive samplePayloadNoKeys).map
        (fun m => m.resolvedNodes.map (fun n => (n.privateKey, n.publicKey)))
      = .ok [(none, none)] := by
  decide

/-- C4 (amended): per peer, both key-filling variants generate a
keypair when `autoGenerateKeys` and both keys are JS-falsy, and derive
the public key when the private key is present and the public key
falsy; on the fall-through with a missing private key the `generateZip`
variant (`src/unnamed/part_002`) fails with a `MissingKey` error while
`resolveMeshState` returns the peer unchanged without failing; with
both keys present both variants return them unchanged. -/
theorem c4_amended (autoGen : Bool) (gen : KeyPair)
    (dp : String → Except GenErr String) (nm : String) (priv pub : Option String) :
    (autoGen = true → jsFalsy pub = true → jsFalsy priv = true →
      fillKeysZip autoGen gen dp nm priv pub = .ok (some gen.privateKey, some gen.publicKey) ∧
      fillKeysResolve autoGen gen dp priv pub = .ok (some gen.privateKey, some gen.publicKey)) ∧
    (jsFalsy priv = false → jsFalsy pub = true →
      fillKeysZip autoGen gen dp nm priv pub =
        (dp (priv.getD "")).map (fun pk => (priv, some pk)) ∧
      fillKeysResolve autoGen gen dp priv pub =
        (dp (priv.getD "")).map (fun pk => (priv, some pk))) ∧
    (jsFalsy priv = true → (autoGen = false ∨ jsFalsy pub = false) →
      fillKeysZip autoGen gen dp nm priv pub = .error (.missingPrivateKey nm) ∧
      (GenErr.missingPrivateKey nm).isMissingKey = true ∧
      fillKeysResolve autoGen gen dp priv pub = .ok (priv, pub)) ∧
    (jsFalsy priv = false → jsFalsy pub = false →
      fillKeysZip autoGen gen dp nm priv pub = .ok (priv, pub) ∧
      fillKeysResolve autoGen gen dp priv pub = .ok (priv, pub)) := by
  refine ⟨?_, ?_, ?_, ?_⟩
  · intro h1 h2 h3
    simp [fillKeysZip, fillKeysResolve, h1, h2, h3]
  · intro h1 h2
    cases hdp : dp (priv.getD "") with
    | error e => simp [fillKeysZip, fillKeysResolve, h1, h2, hdp, Except.map]
    | ok pk => simp [fillKeysZip, fillKeysResolve, h1, h2, hdp, Except.map]
  · intro h1 h2
    rcases h2 with h2 | h2 <;>
      simp [fillKeysZip, fillKeysResolve, h1, h2, GenErr.isMissingKey]
  · intro h1 h2
    simp [fillKeysZip, fillKeysResolve, h1, h2]

/-- C4 witness: the amended branch behavior at a concrete peer with a
missing private key and a present public key under
`autoGenerateKeys = false`. -/
theorem c4_amended_witness :
    (jsFalsy none = true ∧ (false = false ∨ jsFalsy (some "PUB") = false)) ∧
    (fillKeysZip false ⟨"gp", "gq"⟩ sampleDerive "N1" none (some "PUB") =
        .error (.missingPrivateKey "N1") ∧
      (GenErr.missingPrivateKey "N1").isMissingKey = true ∧
      fillKeysResolve false ⟨"gp", "gq"⟩ sampleDerive none (some "PUB") =
        .ok (none, some "PUB")) :=
  ⟨⟨by decide, Or.inl rfl⟩,
    (c4_amended false ⟨"gp", "gq"⟩ sampleDerive "N1" none (some "PUB")).2.2.1
      (by decide) (Or.inl rfl)⟩

/-! ## C8 — neighbor adjacency symmetry -/

/-- Membership in a `pushNew` accumulation. -/
theorem mem_pushNew {x v : Nat} {acc : List Nat} : x ∈ pushNew acc v ↔ x ∈ acc ∨ x = v := by
  unfold pushNew
  split
  · next hin => exact ⟨fun h => Or.inl h, fun h => h.elim id (fun hx => hx ▸ hin)⟩
  · simp

/-- Inverting one modular offset step: for `a, b < n` and
`0 < o < n`, `(a + o) % n = b` exactly when `(b + n - o) % n = a`. -/
theorem mod_add_cancel {n i j o : Nat} (hi : i < n) (hj : j < n)
    (ho1 : 0 < o) (ho : o < n) : (i + o) % n = j ↔ (j + n - o) % n = i := by
  have hno : (n - o) % n = n - o := Nat.mod_eq_of_lt (by omega)
  have hoo : o % n = o := Nat.mod_eq_of_lt ho
  constructor
  · rintro rfl
    calc ((i + o) % n + n - o) % n
        = ((i + o) % n + (n - o)) % n := by congr 1; omega
      _ = ((i + o) % n + (n - o) % n) % n := by rw [hno]
      _ = ((i + o) + (n - o)) % n := by rw [← Nat.add_mod]
      _ = (i + n) % n := by congr 1; omega
      _ = i % n := Nat.add_mod_right i n ▸ rfl
      _ = i := Nat.mod_eq_of_lt hi
  · rintro rfl
    calc ((j + n - o) % n + o) % n
        = ((j + n - o) % n + o % n) % n := by rw [hoo]
      _ = ((j + n - o) + o) % n := by rw [← Nat.add_mod]
      _ = (j + n) % n := by congr 1; omega
      _ = j % n := Nat.add_mod_right j n ▸ rfl
      _ = j := Nat.mod_eq_of_lt hj

/-- Membership in `neighborIndexes` for rings of at least 6 nodes:
exactly the four ring offsets `±1`, `±3`, excluding the node itself. -/
theorem mem_neighborIndexes_ge6 {n i j : Nat} (h6 : 6 ≤ n) :
    j ∈ neighborIndexes i n ↔
      ((j = (i + 1) % n ∨ j = (i + n - 1) % n ∨ j = (i + 3) % n ∨ j = (i + n - 3) % n) ∧
        j ≠ i) := by
  unfold neighborIndexes
  rw [if_neg (by omega), if_neg (by omega), if_neg (by omega)]
  dsimp only
  rw [if_neg (by omega)]
  simp only [List.foldl_cons, List.foldl_nil, List.mem_filter, mem_pushNew,
    List.not_mem_nil, false_or, decide_eq_true_eq]
  tauto

/-- C8: neighbor adjacency is symmetric — for all `i, j < n`,
`j ∈ neighborIndexes i n ↔ i ∈ neighborIndexes j n`. -/
theorem neighborIndexes_symm (n i j : Nat) (hi : i < n) (hj : j < n) :
    j ∈ neighborIndexes i n ↔ i ∈ neighborIndexes j n := by
  rcases lt_or_le n 6 with h6 | h6
  · interval_cases n <;> interval_cases i <;> interval_cases j <;> decide
  · have key : ∀ a b : Nat, a < n → b < n →
        (b = (a + 1) % n ∨ b = (a + n - 1) % n ∨ b = (a + 3) % n ∨ b = (a + n - 3) % n) ∧
          b ≠ a →
        (a = (b + 1) % n ∨ a = (b + n - 1) % n ∨ a = (b + 3) % n ∨ a = (b + n - 3) % n) ∧
          a ≠ b := by
      intro a b ha hb h
      refine ⟨?_, h.2.symm⟩
      rcases h.1 with h1 | h1 | h1 | h1
      · exact Or.inr (Or.inl ((mod_add_cancel ha hb (by omega) (by omega)).mp h1.symm).symm)
      · exact Or.inl ((mod_add_cancel hb ha (by omega) (by omega)).mpr h1.symm).symm
      · exact Or.inr (Or.inr (Or.inr
          ((mod_add_cancel ha hb (by omega) (by omega)).mp h1.symm).symm))
      · exact Or.inr (Or.inr (Or.inl
          ((mod_add_cancel hb ha (by omega) (by omega)).mpr h1.symm).symm))
    rw [mem_neighborIndexes_ge6 h6, mem_neighborIndexes_ge6 h6]
    exact ⟨key i j hi hj, key j i hj hi⟩

/-- C8 witness: symmetry at the spec's S2 scenario (`n = 6`, nodes 0
and 3, which are `±3` neighbors). -/
theorem neighborIndexes_symm_witness :
    (0 < 6 ∧ 3 < 6) ∧ (3 ∈ neighborIndexes 0 6 ↔ 0 ∈ neighborIndexes 3 6) :=
  ⟨by decide, neighborIndexes_symm 6 0 3 (by decide) (by decide)⟩

/-! ## C9 — dry-run is a pure plan -/

/-- C9: when `applyPeerOperations` runs with `dryRun = true` and the
revision check passes, it returns
`{dryRun, currentRevision, nextRevision = currentRevision + 1, plan,
summary}` with one `planLine` per scheduled runtime op (`[REMOVE] …
peer <pub> remove`, other ops `… peer <pub> allowed-ips <csv>`), and
both the persisted document and the world — trace included, so no
mutating adapter call was attempted — are returned unchanged. -/
theorem c9_dry_run_pure (name : String) (input : ApplyPeersRequest) (s0 : PersistedState)
    (w0 : World) (cur : Nat)
    (hcur : currentRevisionView s0 w0.runtime name = some cur)
    (hrev : input.revision = cur)
    (hdry : input.dryRun = true) :
    applyPeerOperations name input s0 w0 =
      (.ok (.dry cur (cur + 1)
        ((scheduleOps name (getPeersForInterface s0 name) input.operations).runtimeOps.map
          (planLine name))
        (scheduleOps name (getPeersForInterface s0 name) input.operations).summary),
        s0, w0) := by
  unfold currentRevisionView at hcur
  unfold applyPeerOperations
  cases hres : resolveIface s0 w0.runtime name with
  | none => rw [hres] at hcur; exact absurd hcur (by simp)
  | some rec0 =>
    rw [hres] at hcur
    simp only [Option.map_some'] at hcur
    injection hcur with hc
    subst hrev
    dsimp only
    rw [if_neg (show ¬rec0.revision ≠ input.revision from by simp [hc]), hdry]
    simp [hc]

/-- C9 witness: the dry-run theorem at the S3-style scenario (`wg0` at
revision 3 with managed peer `P1`; add `P2`, toggle `P1` off). -/
theorem c9_dry_run_pure_witness :
    (currentRevisionView sampleState sampleWorld.runtime "wg0" = some 3 ∧
      (3 : Nat) = 3 ∧ true = true) ∧
    applyPeerOperations "wg0"
        { revision := 3, dryRun := true, operations := [.add samplePeer2, .toggle "p1" false] }
        sampleState sampleWorld =
      (.ok (.dry 3 4
        ((scheduleOps "wg0" (getPeersForInterface sampleState "wg0")
            [.add samplePeer2, .toggle "p1" false]).runtimeOps.map (planLine "wg0"))
        (scheduleOps "wg0" (getPeersForInterface sampleState "wg0")
            [.add samplePeer2, .toggle "p1" false]).summary),
        sampleState, sampleWorld) :=
  ⟨⟨by decide, rfl, rfl⟩,
    c9_dry_run_pure "wg0"
      { revision := 3, dryRun := true, operations := [.add samplePeer2, .toggle "p1" false] }
      sampleState sampleWorld 3 (by decide) rfl rfl⟩

/-! ## C1 — revision optimistic concurrency -/

/-- C1 (amended): for `applyPeerOperations`, `toggleInterfaceState`
and `reconcileInterface` the input carries a revision; when it differs
from the target interface's current revision (the persisted revision,
or 0 for a synthetic runtime-only interface) the call fails with
`RevisionConflict{expected = current, received = supplied}` and
returns the persisted document and the world — trace included —
unchanged.  `deployMeshConfig` is NOT covered: its input carries no
revision and it mutates unconditionally (see the counterexample). -/
theorem c1_revision_conflict_guard (name : String) (s0 : PersistedState) (w0 : World)
    (cur : Nat) (ain : ApplyPeersRequest) (tin : ToggleInterfaceRequest)
    (rin : ReconcileRequest)
    (hcur : currentRevisionView s0 w0.runtime name = some cur)
    (ha : ain.revision ≠ cur) (ht : tin.revision ≠ cur) (hr : rin.revision ≠ cur) :
    applyPeerOperations name ain s0 w0 =
      (.error (.revisionConflict cur ain.revision), s0, w0) ∧
    toggleInterfaceState name tin s0 w0 =
      (.error (.revisionConflict cur tin.revision), s0, w0) ∧
    reconcileInterface name rin s0 w0 =
      (.error (.revisionConflict cur rin.revision), s0, w0) := by
  unfold currentRevisionView at hcur
  cases hres : resolveIface s0 w0.runtime name with
  | none => rw [hres] at hcur; exact absurd hcur (by simp)
  | some rec0 =>
    rw [hres] at hcur
    simp only [Option.map_some'] at hcur
    injection hcur with hc
    subst hc
    refine ⟨?_, ?_, ?_⟩
    · unfold applyPeerOperations
      rw [hres]
      dsimp only
      rw [if_pos (fun hh => ha hh.symm)]
    · unfold toggleInterfaceState
      rw [hres]
      dsimp only
      rw [if_pos (fun hh => ht hh.symm)]
    · unfold reconcileInterface
      rw [hres]
      dsimp only
      rw [if_pos (fun hh => hr hh.symm)]

/-- C1 witness: the guard at `wg0` (current revision 3) with all
three requests supplying revision 5. -/
theorem c1_revision_conflict_guard_witness :
    (currentRevisionView sampleState sampleWorld.runtime "wg0" = some 3 ∧ (5 : Nat) ≠ 3) ∧
    (applyPeerOperations "wg0" { revision := 5, operations := [.add samplePeer2] }
        sampleState sampleWorld =
      (.error (.revisionConflict 3 5), sampleState, sampleWorld) ∧
    toggleInterfaceState "wg0" { revision := 5, isUp := false } sampleState sampleWorld =
      (.error (.revisionConflict 3 5), sampleState, sampleWorld) ∧
    reconcileInterface "wg0" { revision := 5, mode := .runtime_to_state }
        sampleState sampleWorld =
      (.error (.revisionConflict 3 5), sampleState, sampleWorld)) :=
  ⟨⟨by decide, by decide⟩,
    c1_revision_conflict_guard "wg0" sampleState sampleWorld 3
      { revision := 5, operations := [.add samplePeer2] }
      { revision := 5, isUp := false }
      { revision := 5, mode := .runtime_to_state }
      (by decide) (by decide) (by decide) (by decide)⟩

/-- A persisted document holding `wg0` at revision 5. -/
def sampleState5 : PersistedState :=
  { version := 1, updatedAt := "t0",
    interfaces :=
      [("wg0",
        { listenPort := 51820, addressCidr := "10.0.0.0/24", revision := 5, isUp := true })],
    peers := [samplePeer1] }

/-- A deploy input for `wg0` — note `DeployConfig` has no revision
field to supply. -/
def sampleDeploy : DeployConfig :=
  { interface :=
      { name := "wg0", addressCidr := "10.0.0.1/24", listenPort := 51820,
        privateKey := some "SKif" },
    peers := [{ name := "P2", publicKey := "PUB2", allowedIps := ["10.0.0.2/32"] }] }

/-- A world for the deploy scenario (one uuid available for the new
peer). -/
def sampleWorldU : World :=
  { runtime :=
      [("wg0", { up := true, listenPort := 51820, peers := [toRuntimePeer samplePeer1] })],
    uuids := ["u1"], now := "t2" }

/-- C1 counterexample: `deployMeshConfig` mutates managed interface
state with no caller-supplied revision and no revision comparison —
on a document whose `wg0` sits at revision 5 it succeeds and bumps
the revision to 6 instead of failing with `RevisionConflict`. -/
theorem c1_counterexample :
    (deployMeshConfig sampleDeploy sampleState5 sampleWorldU).1 = .ok () ∧
    (lookupIface (deployMeshConfig sampleDeploy sampleState5 sampleWorldU).2.1 "wg0").map
        (·.revision) = some 6 ∧
    (lookupIface sampleState5 "wg0").map (·.revision) = some 5 := by
  decide

/-! ## C2/C3 — rollback machinery lemmas -/

/-- Every attempted mutating call appends itself to the trace,
whether it succeeds or fails. -/
theorem adapterMutate_trace (w : World) (c : AdapterCall) :
    ((adapterMutate w c).2).trace = w.trace ++ [c] := by
  unfold adapterMutate
  dsimp only
  split
  · rfl
  · split <;> rfl

/-- Mutating calls never consume save-fault entries. -/
theorem adapterMutate_saveFaults (w : World) (c : AdapterCall) :
    ((adapterMutate w c).2).saveFaults = w.saveFaults := by
  unfold adapterMutate
  dsimp only
  split
  · rfl
  · split <;> rfl

/-- Replacing the entry keyed `name` makes `find?` return it. -/
theorem find?_replace (name : String) (ri : RuntimeIface) :
    ∀ rt : List (String × RuntimeIface),
      rt.any (fun p => p.1 == name) = true →
      (rt.map (fun p => if p.1 == name then (name, ri) else p)).find? (fun p => p.1 == name)
        = some (name, ri)
  | [], h => by simp at h
  | hd :: tl, h => by
    by_cases hh : (hd.1 == name) = true
    · rw [List.map_cons, if_pos hh, List.find?_cons_of_pos _ (by simp)]
    · rw [List.map_cons, if_neg hh, List.find?_cons_of_neg _ (by simp [hh])]
      apply find?_replace
      simpa [List.any_cons, hh] using h

/-- Writing an interface into the runtime makes it found. -/
theorem lookupRt_setRt (rt : List (String × RuntimeIface)) (name : String)
    (ri : RuntimeIface) : lookupRt (setRt rt name ri) name = some ri := by
  unfold setRt lookupRt
  split
  · next hany => rw [find?_replace name ri rt hany]; rfl
  · next hany =>
    have hnone : rt.find? (fun p => p.1 == name) = none := by
      rw [List.find?_eq_none]
      intro x hx hpx
      exact hany (List.any_eq_true.mpr ⟨x, hx, hpx⟩)
    rw [List.find?_append, hnone, Option.none_or, List.find?_cons_of_pos _ (by simp)]
    rfl

/-- A forward scheduled call (`runtimeCall`) succeeds semantically
whenever the target interface exists in the runtime, and it keeps the
interface present. -/
theorem forward_step (rt : List (String × RuntimeIface)) (name : String) (op : RuntimeOp)
    (h : (lookupRt rt name).isSome = true) :
    ∃ rt2, adapterEffect rt (runtimeCall name op) = .ok rt2 ∧
      (lookupRt rt2 name).isSome = true := by
  obtain ⟨ri, hri⟩ := Option.isSome_iff_exists.mp h
  cases op with
  | add p =>
    refine ⟨setRt rt name { ri with peers := rtSetPeer ri.peers (toRuntimePeer p) }, ?_, ?_⟩
    · simp [adapterEffect, runtimeCall, hri]
    · simp [lookupRt_setRt]
  | update p prev =>
    refine ⟨setRt rt name { ri with peers := rtSetPeer ri.peers (toRuntimePeer p) }, ?_, ?_⟩
    · simp [adapterEffect, runtimeCall, hri]
    · simp [lookupRt_setRt]
  | remove p =>
    by_cases hp : ri.peers.any (fun q => q.publicKey == p.publicKey) = true
    · refine ⟨setRt rt name
        { ri with peers := ri.peers.filter (fun q => q.publicKey != p.publicKey) }, ?_, ?_⟩
      · simp [adapterEffect, runtimeCall, hri, hp]
      · simp [lookupRt_setRt]
    · exact ⟨rt, by simp [adapterEffect, runtimeCall, hri, hp], h⟩

/-- Indexing into the tail shifts the index by one. -/
theorem getD_tail {α : Type _} (l : List α) (i : Nat) (d : α) :
    l.tail.getD i d = l.getD (i + 1) d := by
  cases l <;> simp [List.getD]

/-- The world after one successful mutating call: one trace entry
appended, one fault entry consumed, the effect applied. -/
def stepWorld (w : World) (c : AdapterCall) (rt2 : List (String × RuntimeIface)) : World :=
  { w with trace := w.trace ++ [c], faults := w.faults.tail, runtime := rt2 }

/-- A successful mutating call, in components: when the fault entry
says success and the semantic effect succeeds, the call returns `ok`
and the world advances by `stepWorld`. -/
theorem adapterMutate_forward_ok (w : World) (name : String) (op : RuntimeOp)
    (rt2 : List (String × RuntimeIface))
    (hf : w.faults.headD false = false)
    (heff : adapterEffect w.runtime (runtimeCall name op) = .ok rt2) :
    adapterMutate w (runtimeCall name op) =
      (.ok (), stepWorld w (runtimeCall name op) rt2) := by
  unfold adapterMutate stepWorld
  rw [hf]
  simp only [Bool.false_eq_true, if_false]
  rw [show ({ w with trace := w.trace ++ [runtimeCall name op], faults := w.faults.tail } : World).runtime = w.runtime from rfl, heff]

/-- `runOps` under a fault schedule whose first `true` entry sits at
position `j < |ops|`: the ops before `j` execute and are stacked in
order, the `j`-th call is attempted and fails as injected, and the
trace records exactly the first `j+1` forward calls. -/
theorem runOps_fail (name : String) :
    ∀ (ops : List RuntimeOp) (w : World) (j : Nat),
      (lookupRt w.runtime name).isSome = true →
      j < ops.length →
      (∀ i, i < j → w.faults.getD i false = false) →
      w.faults.getD j false = true →
      (runOps name w ops).2.1 = ops.take j ∧
      (runOps name w ops).2.2 = some RtError.injected ∧
      (runOps name w ops).1.trace = w.trace ++ (ops.take (j + 1)).map (runtimeCall name)
  | [], _, j, _, hj, _, _ => absurd hj (Nat.not_lt_zero j)
  | op :: rest, w, 0, hsome, hj, hpre, hfj => by
    have hf : w.faults.headD false = true := by
      cases hfl : w.faults with
      | nil => rw [hfl] at hfj; simp [List.getD] at hfj
      | cons b bs => rw [hfl] at hfj; simpa [List.getD] using hfj
    unfold runOps adapterMutate
    rw [hf]
    simp
  | op :: rest, w, j + 1, hsome, hj, hpre, hfj => by
    have hf0 : w.faults.headD false = false := by
      have h0 := hpre 0 (by omega)
      cases hfl : w.faults with
      | nil => simp
      | cons b bs => rw [hfl] at h0; simpa [List.getD] using h0
    obtain ⟨rt2, heff, hsome2⟩ := forward_step w.runtime name op hsome
    have hmut := adapterMutate_forward_ok w name op rt2 hf0 heff
    have ihres := runOps_fail name rest (stepWorld w (runtimeCall name op) rt2) j hsome2
      (by simpa using hj)
      (by intro i hi
          show (List.tail w.faults).getD i false = false
          rw [getD_tail]
          exact hpre (i + 1) (by omega))
      (by show (List.tail w.faults).getD j false = true
          rw [getD_tail]
          exact hfj)
    unfold runOps
    rw [hmut]
    dsimp only
    rcases hsplit : runOps name (stepWorld w (runtimeCall name op) rt2) rest with ⟨w2, stack, err⟩
    rw [hsplit] at ihres
    dsimp only at ihres ⊢
    refine ⟨by rw [ihres.1, List.take_succ_cons], ihres.2.1, ?_⟩
    rw [ihres.2.2]
    simp [stepWorld, List.take_succ_cons]

/-- `runOps` when every fault entry up to the length says success and
the interface is present: all ops execute, the stack holds them all in
order, the trace records all forward calls, the interface stays
present and the save-fault schedule is untouched. -/
theorem runOps_ok (name : String) :
    ∀ (ops : List RuntimeOp) (w : World),
      (lookupRt w.runtime name).isSome = true →
      (∀ i, i < ops.length → w.faults.getD i false = false) →
      (runOps name w ops).2.1 = ops ∧
      (runOps name w ops).2.2 = none ∧
      (runOps name w ops).1.trace = w.trace ++ ops.map (runtimeCall name) ∧
      (lookupRt (runOps name w ops).1.runtime name).isSome = true ∧
      (runOps name w ops).1.saveFaults = w.saveFaults
  | [], w, hsome, _ => by
    unfold runOps
    exact ⟨rfl, rfl, by simp, hsome, rfl⟩
  | op :: rest, w, hsome, hall => by
    have hf0 : w.faults.headD false = false := by
      have h0 := hall 0 (by simp)
      cases hfl : w.faults with
      | nil => simp
      | cons b bs => rw [hfl] at h0; simpa [List.getD] using h0
    obtain ⟨rt2, heff, hsome2⟩ := forward_step w.runtime name op hsome
    have hmut := adapterMutate_forward_ok w name op rt2 hf0 heff
    have ihres := runOps_ok name rest (stepWorld w (runtimeCall name op) rt2) hsome2
      (by intro i hi
          show (List.tail w.faults).getD i false = false
          rw [getD_tail]
          exact hall (i + 1) (by simpa using hi))
    unfold runOps
    rw [hmut]
    dsimp only
    rcases hsplit : runOps name (stepWorld w (runtimeCall name op) rt2) rest with ⟨w2, stack, err⟩
    rw [hsplit] at ihres
    dsimp only at ihres ⊢
    refine ⟨by rw [ihres.1], ihres.2.1, ?_, ihres.2.2.2.1, ihres.2.2.2.2.trans rfl⟩
    rw [ihres.2.2.1]
    simp [stepWorld]

/-- Attempted rollback calls append their compensating calls to the
trace in stack-pop (reverse-push) order, whether or not each call
succeeds. -/
theorem rollbackRuntime_trace (name : String) (stack : List RuntimeOp) (w : World) :
    (rollbackRuntime name w stack).trace =
      w.trace ++ stack.reverse.map (rollbackCall name) := by
  unfold rollbackRuntime
  generalize stack.reverse = l
  induction l generalizing w with
  | nil => simp
  | cons op rest ih =>
    simp only [List.foldl_cons, List.map_cons]
    rw [ih, adapterMutate_trace]
    simp

/-- C2: in a non-dry-run `applyPeerOperations` whose revision check
passes, with the target interface present in runtime and the first
command failure injected at position `j` of the scheduled runtime
ops: the first `j` ops execute in input order, the failing `j`-th
call is attempted, then the successful prefix is compensated in
strict LIFO order (`add → remove(ignoreIfMissing)`, `remove → add`,
`update → update(previous)`) — the trace equation holds whatever the
remaining fault entries say, so a rollback call's own failure does
not interrupt the rollback — and the call fails (surfacing as
`APPLY_FAILED` through the route) with the persisted document
unchanged. -/
theorem c2_rollback_on_partial_failure (name : String) (input : ApplyPeersRequest)
    (s0 : PersistedState) (w0 : World) (cur j : Nat) (rops : List RuntimeOp)
    (hcur : currentRevisionView s0 w0.runtime name = some cur)
    (hrev : input.revision = cur)
    (hdry : input.dryRun = false)
    (hrt : (lookupRt w0.runtime name).isSome = true)
    (hrops : rops = (scheduleOps name (getPeersForInterface s0 name) input.operations).runtimeOps)
    (hj : j < rops.length)
    (hpre : ∀ i, i < j → w0.faults.getD i false = false)
    (hfj : w0.faults.getD j false = true) :
    (applyPeerOperations name input s0 w0).1 = .error (.runtimeFailure .injected) ∧
    applyRouteCode (.runtimeFailure .injected) = "APPLY_FAILED" ∧
    (applyPeerOperations name input s0 w0).2.1 = s0 ∧
    (applyPeerOperations name input s0 w0).2.2.trace =
      w0.trace ++ (rops.take (j + 1)).map (runtimeCall name) ++
        (rops.take j).reverse.map (rollbackCall name) := by
  subst hrops
  subst hrev
  unfold currentRevisionView at hcur
  unfold applyPeerOperations
  cases hres : resolveIface s0 w0.runtime name with
  | none => rw [hres] at hcur; exact absurd hcur (by simp)
  | some rec0 =>
    rw [hres] at hcur
    simp only [Option.map_some'] at hcur
    injection hcur with hc
    dsimp only
    rw [if_neg (by simp [hc]), hdry]
    simp only [Bool.false_eq_true, if_false]
    have hrun := runOps_fail name
      (scheduleOps name (getPeersForInterface s0 name) input.operations).runtimeOps
      w0 j hrt hj hpre hfj
    rcases hsplit : runOps name w0
        (scheduleOps name (getPeersForInterface s0 name) input.operations).runtimeOps
      with ⟨w1, stack, err⟩
    rw [hsplit] at hrun
    dsimp only at hrun ⊢
    rw [hrun.2.1]
    dsimp only
    refine ⟨rfl, rfl, rfl, ?_⟩
    rw [rollbackRuntime_trace, hrun.1, hrun.2.2, List.append_assoc]

/-- A world holding `P1` on `wg0` whose second adapter call fails
(S4: runtime failure on the second add). -/
def sampleWorld4 : World :=
  { runtime :=
      [("wg0", { up := true, listenPort := 51820, peers := [toRuntimePeer samplePeer1] })],
    faults := [false, true], now := "t1" }

/-- The S4 operation batch: add `P2`, then add `P3`. -/
def sampleOps4 : List ApplyOperation := [.add samplePeer2, .add samplePeer3]

/-- The S4 apply request at the matching revision 3. -/
def sampleReq4 : ApplyPeersRequest := { revision := 3, operations := sampleOps4 }

/-- The runtime ops S4 schedules. -/
def rops4 : List RuntimeOp :=
  (scheduleOps "wg0" (getPeersForInterface sampleState "wg0") sampleOps4).runtimeOps

/-- C2 witness: the rollback theorem at the S4 scenario — the second
add fails, the first add is compensated by a remove, the document
stays at revision 3 with peer set `{P1}`. -/
theorem c2_rollback_on_partial_failure_witness :
    (1 < rops4.length ∧ sampleWorld4.faults.getD 1 false = true) ∧
    ((applyPeerOperations "wg0" sampleReq4 sampleState sampleWorld4).1 =
        .error (.runtimeFailure .injected) ∧
      applyRouteCode (.runtimeFailure .injected) = "APPLY_FAILED" ∧
      (applyPeerOperations "wg0" sampleReq4 sampleState sampleWorld4).2.1 = sampleState ∧
      (applyPeerOperations "wg0" sampleReq4 sampleState sampleWorld4).2.2.trace =
        sampleWorld4.trace ++ (rops4.take 2).map (runtimeCall "wg0") ++
          (rops4.take 1).reverse.map (rollbackCall "wg0")) :=
  ⟨⟨by decide, by decide⟩,
    c2_rollback_on_partial_failure "wg0" sampleReq4 sampleState sampleWorld4 3 1 rops4
      (by decide) rfl rfl (by decide) rfl (by decide) (by decide) (by decide)⟩

/-- C3 (amended): when every runtime op of a non-dry-run
`applyPeerOperations` succeeds and only the state-persist step fails,
the catch-all error handler DOES run the runtime rollback — the trace
shows every forward call followed by every compensating call in LIFO
order — and the call fails (surfacing as `APPLY_FAILED`) with the
persisted document unchanged; the runtime is not left ahead of the
state. -/
theorem c3_persist_failure_rolls_back (name : String) (input : ApplyPeersRequest)
    (s0 : PersistedState) (w0 : World) (cur : Nat) (rops : List RuntimeOp)
    (hcur : currentRevisionView s0 w0.runtime name = some cur)
    (hrev : input.revision = cur)
    (hdry : input.dryRun = false)
    (hrt : (lookupRt w0.runtime name).isSome = true)
    (hrops : rops = (scheduleOps name (getPeersForInterface s0 name) input.operations).runtimeOps)
    (hall : ∀ i, i < rops.length → w0.faults.getD i false = false)
    (hsave : w0.saveFaults.headD false = true) :
    (applyPeerOperations name input s0 w0).1 = .error .persistFailure ∧
    applyRouteCode .persistFailure = "APPLY_FAILED" ∧
    (applyPeerOperations name input s0 w0).2.1 = s0 ∧
    (applyPeerOperations name input s0 w0).2.2.trace =
      w0.trace ++ rops.map (runtimeCall name) ++ rops.reverse.map (rollbackCall name) := by
  subst hrops
  subst hrev
  unfold currentRevisionView at hcur
  unfold applyPeerOperations
  cases hres : resolveIface s0 w0.runtime name with
  | none => rw [hres] at hcur; exact absurd hcur (by simp)
  | some rec0 =>
    rw [hres] at hcur
    simp only [Option.map_some'] at hcur
    injection hcur with hc
    dsimp only
    rw [if_neg (by simp [hc]), hdry]
    simp only [Bool.false_eq_true, if_false]
    have hrun := runOps_ok name
      (scheduleOps name (getPeersForInterface s0 name) input.operations).runtimeOps w0 hrt hall
    rcases hsplit : runOps name w0
        (scheduleOps name (getPeersForInterface s0 name) input.operations).runtimeOps
      with ⟨w1, stack, err⟩
    rw [hsplit] at hrun
    dsimp only at hrun ⊢
    rw [hrun.2.1]
    dsimp only
    have hres1 : ∃ rec1, resolveIface s0 w1.runtime name = some rec1 ∧
        rec1.revision = input.revision := by
      unfold resolveIface at hres ⊢
      cases hli : lookupIface s0 name with
      | some r =>
        rw [hli] at hres
        injection hres with h
        exact ⟨r, rfl, by rw [h]; exact hc⟩
      | none =>
        rw [hli] at hres
        obtain ⟨ri0, hri0⟩ := Option.isSome_iff_exists.mp hrt
        rw [hri0] at hres
        injection hres with h
        obtain ⟨ri1, hri1⟩ := Option.isSome_iff_exists.mp hrun.2.2.2.1
        rw [hri1]
        exact ⟨syntheticRecord, rfl, by rw [h]; exact hc⟩
    obtain ⟨rec1, hrec1, hrev1⟩ := hres1
    unfold smUpdate
    dsimp only
    rw [hrec1]
    dsimp only
    rw [if_neg (by simp [hrev1])]
    dsimp only
    rw [show w1.saveFaults = w0.saveFaults from hrun.2.2.2.2, hsave]
    rw [if_pos rfl]
    refine ⟨rfl, rfl, rfl, ?_⟩
    rw [rollbackRuntime_trace, hrun.1]
    rw [show ({ w1 with saveFaults := w0.saveFaults.tail } : World).trace = w1.trace from rfl]
    rw [hrun.2.2.1, List.append_assoc]

/-- A world holding `P1` on `wg0` where every adapter call succeeds
but the state-file save fails. -/
def sampleWorldSave : World :=
  { runtime :=
      [("wg0", { up := true, listenPort := 51820, peers := [toRuntimePeer samplePeer1] })],
    saveFaults := [true], now := "t3" }

/-- An apply request adding `P2` at the matching revision 3. -/
def sampleReqS : ApplyPeersRequest := { revision := 3, operations := [.add samplePeer2] }

/-- The runtime ops that request schedules. -/
def ropsS : List RuntimeOp :=
  (scheduleOps "wg0" (getPeersForInterface sampleState "wg0") [.add samplePeer2]).runtimeOps

/-- C3 witness: the persist-failure theorem at the concrete add-`P2`
scenario. -/
theorem c3_persist_failure_rolls_back_witness :
    (sampleWorldSave.saveFaults.headD false = true ∧
      (∀ i, i < ropsS.length → sampleWorldSave.faults.getD i false = false)) ∧
    ((applyPeerOperations "wg0" sampleReqS sampleState sampleWorldSave).1 =
        .error .persistFailure ∧
      applyRouteCode .persistFailure = "APPLY_FAILED" ∧
      (applyPeerOperations "wg0" sampleReqS sampleState sampleWorldSave).2.1 = sampleState ∧
      (applyPeerOperations "wg0" sampleReqS sampleState sampleWorldSave).2.2.trace =
        sampleWorldSave.trace ++ ropsS.map (runtimeCall "wg0") ++
          ropsS.reverse.map (rollbackCall "wg0")) :=
  ⟨⟨rfl, by decide⟩,
    c3_persist_failure_rolls_back "wg0" sampleReqS sampleState sampleWorldSave 3 ropsS
      (by decide) rfl rfl (by decide) rfl (by decide) rfl⟩

/-- C3 counterexample: with all runtime ops successful and only the
persist step failing, the claim says no rollback is attempted and the
runtime is left ahead of the state; concretely the trace ends with
the compensating `removePeer` for the added peer and the final
runtime equals the initial runtime — the rollback WAS attempted and
the runtime is not ahead. -/
theorem c3_counterexample :
    (applyPeerOperations "wg0" sampleReqS sampleState sampleWorldSave).1 =
      .error .persistFailure ∧
    (applyPeerOperations "wg0" sampleReqS sampleState sampleWorldSave).2.1 = sampleState ∧
    (applyPeerOperations "wg0" sampleReqS sampleState sampleWorldSave).2.2.trace =
      [.addPeer "wg0" { samplePeer2 with interface := some "wg0" },
        .removePeer "wg0" "PUB2" true] ∧
    lookupRt (applyPeerOperations "wg0" sampleReqS sampleState sampleWorldSave).2.2.runtime
        "wg0" =
      lookupRt sampleWorldSave.runtime "wg0" := by
  decide
